import Mathlib

/-!
Environment controller of managed-gitops: a shallow embedding.

Source: `appstudio-controller/controllers/appstudio.redhat.com/environment_controller.go`.

The Kubernetes objects are records holding the fields the controller reads or
writes.  The `client.Client` interface is a record of functions over an
abstract store state `σ`: reads are functions of the state, writes return the
next state.  The resolver and `Reconcile` also return the list of store calls
they issued, in order, so that "performs no Create" and "without reading the
store" are statements about that list.  Log calls, among them
`LogAPIResourceChangeEvent`, have no effect on the store or on the results and
are left out.
-/

set_option autoImplicit false

namespace ManagedGitops

/-! ## Errors and object identity -/

/-- A Go `error` value.  `IsNotFound` is the answer of `apierr.IsNotFound`;
`msg` is the text `%v` prints. -/
structure GoError where
  IsNotFound : Bool
  msg : String
deriving DecidableEq, Repr

/-- The error built by `fmt.Errorf` with `%v`/`%s` verbs only: a fresh error
that wraps nothing, so `apierr.IsNotFound` is false on it. -/
def fmtErrorf (msg : String) : GoError := ⟨false, msg⟩

/-- The key `client.ObjectKeyFromObject` computes, and the payload of a
`reconcile.Request`. -/
structure NamespacedName where
  Namespace : String
  Name : String
deriving DecidableEq, Repr

/-- A `metav1.OwnerReference`, with the fields the controller sets. -/
structure OwnerReference where
  APIVersion : String
  Kind : String
  Name : String
  UID : String
deriving DecidableEq, Repr

/-- The part of `metav1.ObjectMeta` the controller or its claims mention.  The
defaults are Go's zero values. -/
structure ObjectMeta where
  Name : String := ""
  Namespace : String := ""
  UID : String := ""
  ResourceVersion : String := ""
  Labels : List (String × String) := []
  OwnerReferences : List OwnerReference := []
deriving DecidableEq, Repr

/-- The result of `client.ObjectKeyFromObject`. -/
def ObjectKeyFromObject (m : ObjectMeta) : NamespacedName :=
  ⟨m.Namespace, m.Name⟩

/-- The `schema.GroupVersion` value `managedgitopsv1alpha1.GroupVersion`.  It
is declared in another package, so the functions that use it take it as an
argument. -/
structure GroupVersion where
  Group : String
  Version : String
deriving DecidableEq, Repr

/-! ## Resources -/

/-- Modelled from the spec: the cluster credentials
`{APIURL, ClusterCredentialsSecret, AllowInsecureSkipTLSVerify}` carried by an
Environment's direct configuration and by a DeploymentTarget.  The Go type is
declared in the application-api module. -/
structure KubernetesClusterCredentials where
  APIURL : String := ""
  ClusterCredentialsSecret : String := ""
  AllowInsecureSkipTLSVerify : Bool := false
deriving DecidableEq, Repr

/-- Modelled from the spec: the direct-credential form of an Environment's
configuration.  The credentials struct is embedded, so its fields are promoted
as in Go. -/
structure UnstableEnvironmentConfiguration extends KubernetesClusterCredentials
deriving DecidableEq, Repr

/-- Modelled from the spec: an Environment's configuration is the optional
direct credentials together with the name of the referenced claim (empty when
there is none). -/
structure EnvironmentSpec where
  DeploymentTargetClaimName : String := ""
  UnstableConfigurationFields : Option UnstableEnvironmentConfiguration := none
deriving DecidableEq, Repr

/-- The Environment resource. -/
structure Environment extends ObjectMeta where
  Spec : EnvironmentSpec := {}
deriving DecidableEq, Repr

/-- The accessor `Environment.GetDeploymentTargetClaimName` of the
application-api module: the configured claim name. -/
def Environment.GetDeploymentTargetClaimName (e : Environment) : String :=
  e.Spec.DeploymentTargetClaimName

/-- Modelled from the spec: a claim's `TargetName` reference. -/
structure DeploymentTargetClaimSpec where
  TargetName : String := ""
deriving DecidableEq, Repr

/-- Modelled from the spec: a claim's `Phase`. -/
structure DeploymentTargetClaimStatus where
  Phase : String := ""
deriving DecidableEq, Repr

/-- The DeploymentTargetClaim resource. -/
structure DeploymentTargetClaim extends ObjectMeta where
  Spec : DeploymentTargetClaimSpec := {}
  Status : DeploymentTargetClaimStatus := {}
deriving DecidableEq, Repr

/-- Modelled from the spec: the phase value `Bound` of a claim
(`appstudioshared.DeploymentTargetClaimPhase_Bound`). -/
def DeploymentTargetClaimPhase_Bound : String := "Bound"

/-- Modelled from the spec: a target's `ClaimRef` back-reference and its
cluster credentials. -/
structure DeploymentTargetSpec where
  KubernetesClusterCredentials : KubernetesClusterCredentials := {}
  ClaimRef : String := ""
deriving DecidableEq, Repr

/-- The DeploymentTarget resource. -/
structure DeploymentTarget extends ObjectMeta where
  Spec : DeploymentTargetSpec := {}
deriving DecidableEq, Repr

/-- A `corev1.Secret`; the controller only checks that it exists. -/
structure Secret extends ObjectMeta where
  Data : List (String × String) := []
deriving DecidableEq, Repr

/-- Modelled from the spec: the Spec of the derived resource is exactly
`{APIURL, ClusterCredentialsSecret, AllowInsecureSkipTLSVerify}`. -/
structure GitOpsDeploymentManagedEnvironmentSpec where
  APIURL : String := ""
  ClusterCredentialsSecret : String := ""
  AllowInsecureSkipTLSVerify : Bool := false
deriving DecidableEq, Repr

/-- The GitOpsDeploymentManagedEnvironment resource. -/
structure GitOpsDeploymentManagedEnvironment extends ObjectMeta where
  Spec : GitOpsDeploymentManagedEnvironmentSpec := {}
deriving DecidableEq, Repr

/-- A `metav1.Condition`.  `Type_` is Go's field `Type`; times are natural
numbers. -/
structure Condition where
  Type_ : String
  Status : String
  Reason : String
  Message : String
  LastTransitionTime : Nat
deriving DecidableEq, Repr

/-- The status of a SnapshotEnvironmentBinding, with its condition list. -/
structure SnapshotEnvironmentBindingStatus where
  BindingConditions : List Condition := []
deriving DecidableEq, Repr

/-- The SnapshotEnvironmentBinding resource. -/
structure SnapshotEnvironmentBinding extends ObjectMeta where
  Status : SnapshotEnvironmentBindingStatus := {}
deriving DecidableEq, Repr

/-- The argument of a mapping function: a `client.Object` of some kind. -/
inductive Object where
  | Environment (o : Environment)
  | DeploymentTargetClaim (o : DeploymentTargetClaim)
  | DeploymentTarget (o : DeploymentTarget)
  | Secret (o : Secret)
deriving DecidableEq, Repr

/-- A `reconcile.Request`: the embedded key of the object to reconcile. -/
structure Request extends NamespacedName
deriving DecidableEq, Repr

/-! ## The store -/

/-- The `client.Client` interface, over a store state `σ`.  `Get` and `List`
are given per kind; a read returns the object or an error and leaves the state
alone, a write returns the next state and its error (`none` for Go's `nil`). -/
structure Client (σ : Type) where
  GetEnvironment : σ → NamespacedName → Except GoError Environment
  GetDeploymentTargetClaim : σ → NamespacedName → Except GoError DeploymentTargetClaim
  GetSecret : σ → NamespacedName → Except GoError Secret
  GetManagedEnvironment : σ → NamespacedName → Except GoError GitOpsDeploymentManagedEnvironment
  ListEnvironments : σ → String → Except GoError (List Environment)
  ListDeploymentTargetClaims : σ → String → Except GoError (List DeploymentTargetClaim)
  Create : σ → GitOpsDeploymentManagedEnvironment → σ × Option GoError
  Update : σ → GitOpsDeploymentManagedEnvironment → σ × Option GoError
  StatusUpdate : σ → SnapshotEnvironmentBinding → σ × Option GoError

/-- What the controller file uses but does not declare: the group and version
of the managed-gitops API, and the two package helpers `getDTBoundByDTC`
(the target bound to a claim, `none` for a nil target) and
`isRequestNamespaceBeingDeleted`.  They are arguments of the embedding. -/
structure Deps (σ : Type) where
  GroupVersion : GroupVersion
  getDTBoundByDTC : σ → DeploymentTargetClaim → Except GoError (Option DeploymentTarget)
  isRequestNamespaceBeingDeleted : σ → String → Bool × Option GoError

/-- One call made to the store, or to a helper that reads it. -/
inductive Call where
  | isRequestNamespaceBeingDeleted (ns : String)
  | GetEnvironment (key : NamespacedName)
  | GetDeploymentTargetClaim (key : NamespacedName)
  | getDTBoundByDTC (dtc : DeploymentTargetClaim)
  | GetSecret (key : NamespacedName)
  | GetManagedEnvironment (key : NamespacedName)
  | Create (obj : GitOpsDeploymentManagedEnvironment)
  | Update (obj : GitOpsDeploymentManagedEnvironment)
deriving DecidableEq, Repr

/-- A call that writes to the store. -/
def Call.isWrite : Call → Bool
  | .Create _ => true
  | .Update _ => true
  | _ => false

/-- The writes among a list of calls, in order. -/
def writes (calls : List Call) : List Call :=
  calls.filter Call.isWrite

/-! ## `updateStatusConditionOfEnvironmentBinding` -/

/-- The scan of lines 161-167: the index of the first condition of the given
type, counting from `i`; `none` is the source's `-1`. -/
def findConditionIndex (conditionType : String) : List Condition → Nat → Option Nat
  | [], _ => none
  | condition :: rest, i =>
    if condition.Type_ = conditionType then some i
    else findConditionIndex conditionType rest (i + 1)

/-- The assignments of lines 181-189 to the condition at `index`. -/
def overwriteCondition (now : Nat) (message status reason : String)
    (cond : Condition) : Condition :=
  let cond :=
    if cond.Message ≠ message ∧ cond.Reason ≠ reason ∧ cond.Status ≠ status then
      { cond with LastTransitionTime := now }
    else cond
  let cond := { cond with Reason := reason }
  let cond := { cond with Message := message }
  let cond := { cond with LastTransitionTime := now }
  { cond with Status := status }

/-- The binding as lines 161-191 leave it; `now` is the value of
`metav1.Now()`. -/
def upsertBindingCondition (now : Nat) (message : String)
    (binding : SnapshotEnvironmentBinding) (conditionType status reason : String) :
    SnapshotEnvironmentBinding :=
  let conds := binding.Status.BindingConditions
  match findConditionIndex conditionType conds 0 with
  | none =>
    let conds := conds ++ [{ Type_ := conditionType, Message := message,
                             LastTransitionTime := now, Status := status, Reason := reason }]
    { binding with Status := { binding.Status with BindingConditions := conds } }
  | some index =>
    let conds := conds.modify (overwriteCondition now message status reason) index
    { binding with Status := { binding.Status with BindingConditions := conds } }

/-- The function `updateStatusConditionOfEnvironmentBinding`: the binding after
the in-place update, the store after `client.Status().Update`, and the error
returned. -/
def updateStatusConditionOfEnvironmentBinding {σ : Type} (client : Client σ) (s : σ)
    (now : Nat) (message : String) (binding : SnapshotEnvironmentBinding)
    (conditionType status reason : String) :
    SnapshotEnvironmentBinding × σ × Option GoError :=
  let binding := upsertBindingCondition now message binding conditionType status reason
  match client.StatusUpdate s binding with
  | (s, some err) => (binding, s, some err)
  | (s, none) => (binding, s, none)

/-! ## `generateDesiredResource` -/

/-- The function `generateEmptyManagedEnvironment`. -/
def generateEmptyManagedEnvironment (environmentName environmentNamespace : String) :
    GitOpsDeploymentManagedEnvironment :=
  { Name := "managed-environment-" ++ environmentName, Namespace := environmentNamespace }

/-- Lines 254-280 of `generateDesiredResource`: check that the secret exists,
then build the desired resource.  `calls` are the calls issued so far. -/
def generateDesiredResource.build {σ : Type} (d : Deps σ) (k8sClient : Client σ) (s : σ)
    (env : Environment) (manageEnvDetails : GitOpsDeploymentManagedEnvironmentSpec)
    (calls : List Call) :
    Except GoError (Option GitOpsDeploymentManagedEnvironment) × List Call :=
  let secret : NamespacedName := ⟨env.Namespace, manageEnvDetails.ClusterCredentialsSecret⟩
  let calls := calls ++ [.GetSecret secret]
  match k8sClient.GetSecret s secret with
  | .error err =>
    if err.IsNotFound then
      (.error (fmtErrorf ("the secret '" ++ secret.Name ++
        "' referenced by the Environment resource was not found: " ++ err.msg)), calls)
    else (.error err, calls)
  | .ok _ =>
    let managedEnv := generateEmptyManagedEnvironment env.Name env.Namespace
    let managedEnv := { managedEnv with OwnerReferences := [
      { APIVersion := d.GroupVersion.Group ++ "/" ++ d.GroupVersion.Version,
        Kind := "Environment",
        Name := env.Name,
        UID := env.UID }] }
    let managedEnv := { managedEnv with Spec := manageEnvDetails }
    (.ok (some managedEnv), calls)

/-- The function `generateDesiredResource`: its result (`.ok none` is the
source's `nil, nil`) and the calls it issued. -/
def generateDesiredResource {σ : Type} (d : Deps σ) (k8sClient : Client σ) (s : σ)
    (env : Environment) :
    Except GoError (Option GitOpsDeploymentManagedEnvironment) × List Call :=
  let claimName := env.GetDeploymentTargetClaimName
  if claimName ≠ "" then
    let dtcKey : NamespacedName := ⟨env.Namespace, claimName⟩
    let calls := [Call.GetDeploymentTargetClaim dtcKey]
    match k8sClient.GetDeploymentTargetClaim s dtcKey with
    | .error err => (.error err, calls)
    | .ok dtc =>
      if dtc.Status.Phase ≠ DeploymentTargetClaimPhase_Bound then (.ok none, calls)
      else
        let calls := calls ++ [.getDTBoundByDTC dtc]
        match d.getDTBoundByDTC s dtc with
        | .error err => (.error err, calls)
        | .ok none =>
          (.error (fmtErrorf ("DeploymentTarget not found for DeploymentTargetClaim: " ++
            dtc.Name)), calls)
        | .ok (some dt) =>
          generateDesiredResource.build d k8sClient s env
            { APIURL := dt.Spec.KubernetesClusterCredentials.APIURL,
              ClusterCredentialsSecret :=
                dt.Spec.KubernetesClusterCredentials.ClusterCredentialsSecret }
            calls
  else
    match env.Spec.UnstableConfigurationFields with
    | some fields =>
      generateDesiredResource.build d k8sClient s env
        { APIURL := fields.APIURL,
          ClusterCredentialsSecret := fields.ClusterCredentialsSecret,
          AllowInsecureSkipTLSVerify := fields.AllowInsecureSkipTLSVerify }
        []
    | none => (.ok none, [])

/-! ## `Reconcile` -/

/-- What one run of `Reconcile` returns and does: the error returned (`none`
for `nil`), the store afterwards and the calls issued, in order. -/
structure Outcome (σ : Type) where
  err : Option GoError
  store : σ
  calls : List Call

/-- The method `EnvironmentReconciler.Reconcile`, run on the store `s` through
the client `rClient` (the client as `IfEnabledSimulateUnreliableClient` returns
it). -/
def Reconcile {σ : Type} (d : Deps σ) (rClient : Client σ) (s : σ) (req : Request) :
    Outcome σ :=
  let calls := [Call.isRequestNamespaceBeingDeleted req.Namespace]
  match d.isRequestNamespaceBeingDeleted s req.Namespace with
  | (isNamespaceBeingDeleted, err) =>
  if isNamespaceBeingDeleted ∨ err ≠ none then ⟨err, s, calls⟩
  else
  let envKey : NamespacedName := ⟨req.Namespace, req.Name⟩
  let calls := calls ++ [.GetEnvironment envKey]
  match rClient.GetEnvironment s envKey with
  | .error err =>
    if err.IsNotFound then ⟨none, s, calls⟩
    else ⟨some (fmtErrorf ("unable to retrieve Environment: " ++ err.msg)), s, calls⟩
  | .ok environment =>
  if environment.GetDeploymentTargetClaimName ≠ "" ∧
      environment.Spec.UnstableConfigurationFields ≠ none then
    ⟨some (fmtErrorf ("environment " ++ environment.Name ++
      " is invalid since it cannot have both DeploymentTargetClaim and credentials configuration set")),
      s, calls⟩
  else
  match generateDesiredResource d rClient s environment with
  | (.error err, resolverCalls) =>
    ⟨some (fmtErrorf ("unable to generate expected GitOpsDeploymentManagedEnvironment resource: "
      ++ err.msg)), s, calls ++ resolverCalls⟩
  | (.ok none, resolverCalls) => ⟨none, s, calls ++ resolverCalls⟩
  | (.ok (some desiredManagedEnv), resolverCalls) =>
  let currentManagedEnv := generateEmptyManagedEnvironment environment.Name environment.Namespace
  let currentKey := ObjectKeyFromObject currentManagedEnv.toObjectMeta
  let calls := calls ++ resolverCalls ++ [.GetManagedEnvironment currentKey]
  match rClient.GetManagedEnvironment s currentKey with
  | .error err =>
    if err.IsNotFound then
      let calls := calls ++ [.Create desiredManagedEnv]
      match rClient.Create s desiredManagedEnv with
      | (s, some err) =>
        ⟨some (fmtErrorf ("unable to create new GitOpsDeploymentManagedEnvironment: " ++ err.msg)),
          s, calls⟩
      | (s, none) => ⟨none, s, calls⟩
    else
      ⟨some (fmtErrorf ("unable to retrieve existing GitOpsDeploymentManagedEnvironment '" ++
        currentManagedEnv.Name ++ "': " ++ err.msg)), s, calls⟩
  | .ok currentManagedEnv =>
  if currentManagedEnv.Spec = desiredManagedEnv.Spec then ⟨none, s, calls⟩
  else
  let currentManagedEnv := { currentManagedEnv with Spec := desiredManagedEnv.Spec }
  let calls := calls ++ [.Update currentManagedEnv]
  match rClient.Update s currentManagedEnv with
  | (s, some err) =>
    ⟨some (fmtErrorf ("unable to update existing GitOpsDeploymentManagedEnvironment '" ++
      currentManagedEnv.Name ++ "': " ++ err.msg)), s, calls⟩
  | (s, none) => ⟨none, s, calls⟩

/-! ## The mapping functions -/

/-- The method `findObjectsForDeploymentTargetClaim`: the loop of lines 328-336
appends a request for each listed Environment whose claim name is the claim's. -/
def findObjectsForDeploymentTargetClaim {σ : Type} (client : Client σ) (s : σ)
    (dtc : Object) : List Request :=
  match dtc with
  | .DeploymentTargetClaim dtc =>
    match client.ListEnvironments s dtc.Namespace with
    | .error _ => []
    | .ok items =>
      items.foldl (fun envRequests env =>
        if env.GetDeploymentTargetClaimName = dtc.Name then
          envRequests ++ [{ toNamespacedName := ObjectKeyFromObject env.toObjectMeta }]
        else envRequests) []
  | _ => []

/-- The method `findObjectsForDeploymentTarget`: the claims that name the
target or that the target names, then a request for each pair of a listed
Environment and such a claim with the Environment's claim name. -/
def findObjectsForDeploymentTarget {σ : Type} (client : Client σ) (s : σ)
    (dt : Object) : List Request :=
  match dt with
  | .DeploymentTarget dtObj =>
    match client.ListDeploymentTargetClaims s dtObj.Namespace with
    | .error _ => []
    | .ok dtcItems =>
      let dtcs := dtcItems.foldl (fun dtcs dtc =>
        if dtc.Spec.TargetName = dtObj.Name ∨ dtObj.Spec.ClaimRef = dtc.Name then dtcs ++ [dtc]
        else dtcs) []
      match client.ListEnvironments s dtObj.Namespace with
      | .error _ => []
      | .ok items =>
        items.foldl (fun envRequests env =>
          dtcs.foldl (fun envRequests dtc =>
            if env.GetDeploymentTargetClaimName = dtc.Name then
              envRequests ++ [{ toNamespacedName := ObjectKeyFromObject env.toObjectMeta }]
            else envRequests) envRequests) []
  | _ => []

/-! ## An in-memory store

A concrete store in the manner of controller-runtime's fake client: objects are
kept in lists, `Get` looks an object up by namespace and name, `Create`
appends, `Update` replaces.  The theorems below hold for every client; this
one instantiates them. -/

/-- The state of the in-memory store. -/
structure MemStore where
  terminating : List String := []
  environments : List Environment := []
  claims : List DeploymentTargetClaim := []
  targets : List DeploymentTarget := []
  secrets : List Secret := []
  managedEnvironments : List GitOpsDeploymentManagedEnvironment := []
  bindings : List SnapshotEnvironmentBinding := []
deriving DecidableEq, Repr

/-- The not-found error of the in-memory store. -/
def MemStore.notFound (key : NamespacedName) : GoError :=
  ⟨true, "\"" ++ key.Name ++ "\" not found"⟩

/-- Look an object up by its key. -/
def MemStore.get {α : Type} (meta : α → ObjectMeta) (objs : List α) (key : NamespacedName) :
    Except GoError α :=
  match objs.find? (fun o => decide (ObjectKeyFromObject (meta o) = key)) with
  | some o => .ok o
  | none => .error (MemStore.notFound key)

/-- Replace the objects that have the key of `obj` by `obj`. -/
def MemStore.put {α : Type} (meta : α → ObjectMeta) (objs : List α) (obj : α) : List α :=
  objs.map (fun o =>
    if ObjectKeyFromObject (meta o) = ObjectKeyFromObject (meta obj) then obj else o)

/-- The client of the in-memory store. -/
def memClient : Client MemStore where
  GetEnvironment s key := MemStore.get (·.toObjectMeta) s.environments key
  GetDeploymentTargetClaim s key := MemStore.get (·.toObjectMeta) s.claims key
  GetSecret s key := MemStore.get (·.toObjectMeta) s.secrets key
  GetManagedEnvironment s key := MemStore.get (·.toObjectMeta) s.managedEnvironments key
  ListEnvironments s ns := .ok (s.environments.filter (fun o => decide (o.Namespace = ns)))
  ListDeploymentTargetClaims s ns := .ok (s.claims.filter (fun o => decide (o.Namespace = ns)))
  Create s obj :=
    match MemStore.get (·.toObjectMeta) s.managedEnvironments
        (ObjectKeyFromObject obj.toObjectMeta) with
    | .ok _ => (s, some ⟨false, "\"" ++ obj.Name ++ "\" already exists"⟩)
    | .error _ => ({ s with managedEnvironments := s.managedEnvironments ++ [obj] }, none)
  Update s obj :=
    match MemStore.get (·.toObjectMeta) s.managedEnvironments
        (ObjectKeyFromObject obj.toObjectMeta) with
    | .ok _ =>
      ({ s with managedEnvironments :=
          MemStore.put (·.toObjectMeta) s.managedEnvironments obj }, none)
    | .error err => (s, some err)
  StatusUpdate s obj :=
    match MemStore.get (·.toObjectMeta) s.bindings (ObjectKeyFromObject obj.toObjectMeta) with
    | .ok _ => ({ s with bindings := MemStore.put (·.toObjectMeta) s.bindings obj }, none)
    | .error err => (s, some err)

/-- The helpers over the in-memory store: the target bound to a claim is the
first target of the claim's namespace whose `ClaimRef` is the claim's name, and
a namespace is being deleted when it is listed as terminating. -/
def memDeps : Deps MemStore where
  GroupVersion := ⟨"managed-gitops.redhat.com", "v1alpha1"⟩
  getDTBoundByDTC s dtc :=
    .ok (s.targets.find? (fun dt =>
      decide (dt.Namespace = dtc.Namespace ∧ dt.Spec.ClaimRef = dtc.Name)))
  isRequestNamespaceBeingDeleted s ns := (decide (ns ∈ s.terminating), none)

/-- Equality of `Except` values is decidable when it is for both components. -/
instance instDecidableEqExcept {ε α : Type} [DecidableEq ε] [DecidableEq α] :
    DecidableEq (Except ε α)
  | .ok a, .ok b => if h : a = b then isTrue (by rw [h]) else isFalse (fun e => h (by cases e; rfl))
  | .error a, .error b =>
    if h : a = b then isTrue (by rw [h]) else isFalse (fun e => h (by cases e; rfl))
  | .ok _, .error _ => isFalse (fun e => by cases e)
  | .error _, .ok _ => isFalse (fun e => by cases e)

/-! ## Vocabulary of the statements -/

/-- The message of the error `Reconcile` returns at line 97. -/
def invalidEnvironmentError (env : Environment) : GoError :=
  fmtErrorf ("environment " ++ env.Name ++
    " is invalid since it cannot have both DeploymentTargetClaim and credentials configuration set")

/-- The calls every run of `Reconcile` that fetches the Environment starts with. -/
def preamble (req : Request) : List Call :=
  [.isRequestNamespaceBeingDeleted req.Namespace, .GetEnvironment ⟨req.Namespace, req.Name⟩]

/-- The key under which `Reconcile` looks the ManagedEnvironment of an
Environment up: the key of `generateEmptyManagedEnvironment`. -/
def managedEnvironmentKey (env : Environment) : NamespacedName :=
  ⟨env.Namespace, "managed-environment-" ++ env.Name⟩

/-- The error `Reconcile` makes of a failed `Create` (line 116). -/
def createError (err : GoError) : GoError :=
  fmtErrorf ("unable to create new GitOpsDeploymentManagedEnvironment: " ++ err.msg)

/-- The error `Reconcile` makes of a failed `Update` (line 143). -/
def updateError (name : String) (err : GoError) : GoError :=
  fmtErrorf ("unable to update existing GitOpsDeploymentManagedEnvironment '" ++ name ++ "': "
    ++ err.msg)

/-- The object of lines 269-280. -/
def desiredFor {σ : Type} (d : Deps σ) (env : Environment)
    (details : GitOpsDeploymentManagedEnvironmentSpec) : GitOpsDeploymentManagedEnvironment :=
  { Name := "managed-environment-" ++ env.Name, Namespace := env.Namespace,
    OwnerReferences := [
      { APIVersion := d.GroupVersion.Group ++ "/" ++ d.GroupVersion.Version,
        Kind := "Environment", Name := env.Name, UID := env.UID }],
    Spec := details }

/-- The call `Create` of `obj` in the state `s` persists it verbatim and changes
nothing else: the call succeeds, the next state returns `obj` itself under its key, and
the namespace check, the Environments, the claims, the bound targets and the
secrets read in the next state are those of `s`. -/
structure CreatePersistsVerbatim {σ : Type} (d : Deps σ) (c : Client σ) (s : σ)
    (obj : GitOpsDeploymentManagedEnvironment) : Prop where
  succeeds : (c.Create s obj).2 = none
  stored : c.GetManagedEnvironment (c.Create s obj).1 (ObjectKeyFromObject obj.toObjectMeta) =
    .ok obj
  namespaces : ∀ ns, d.isRequestNamespaceBeingDeleted (c.Create s obj).1 ns =
    d.isRequestNamespaceBeingDeleted s ns
  environments : ∀ key, c.GetEnvironment (c.Create s obj).1 key = c.GetEnvironment s key
  claims : ∀ key, c.GetDeploymentTargetClaim (c.Create s obj).1 key =
    c.GetDeploymentTargetClaim s key
  targets : ∀ dtc, d.getDTBoundByDTC (c.Create s obj).1 dtc = d.getDTBoundByDTC s dtc
  secrets : ∀ key, c.GetSecret (c.Create s obj).1 key = c.GetSecret s key

/-- The store persists what it is given: a `Create` or an `Update` made in the
state `s` that returns no error leaves the object, verbatim, under its key in
the next state, and a `Get` in `s` answers with an object of the key asked. -/
structure PersistsWrites {σ : Type} (c : Client σ) (s : σ) : Prop where
  create : ∀ obj, (c.Create s obj).2 = none →
    c.GetManagedEnvironment (c.Create s obj).1 (ObjectKeyFromObject obj.toObjectMeta) = .ok obj
  update : ∀ obj, (c.Update s obj).2 = none →
    c.GetManagedEnvironment (c.Update s obj).1 (ObjectKeyFromObject obj.toObjectMeta) = .ok obj
  keyed : ∀ key obj, c.GetManagedEnvironment s key = .ok obj →
    ObjectKeyFromObject obj.toObjectMeta = key

/-- The condition line 172-179 appends. -/
def newCondition (now : Nat) (message conditionType status reason : String) : Condition :=
  { Type_ := conditionType, Message := message, LastTransitionTime := now,
    Status := status, Reason := reason }

/-- The error `Reconcile` makes of an error of the resolver (line 102). -/
def resolverError (err : GoError) : GoError :=
  fmtErrorf ("unable to generate expected GitOpsDeploymentManagedEnvironment resource: " ++
    err.msg)

/-- The error `Reconcile` makes of a failed fetch of the ManagedEnvironment
(line 125). -/
def fetchError (name : String) (err : GoError) : GoError :=
  fmtErrorf ("unable to retrieve existing GitOpsDeploymentManagedEnvironment '" ++ name ++
    "': " ++ err.msg)

/-- The error the resolver makes of a secret that is not found (line 263). -/
def missingSecretError (name : String) (err : GoError) : GoError :=
  fmtErrorf ("the secret '" ++ name ++
    "' referenced by the Environment resource was not found: " ++ err.msg)

/-! ## Concrete instances -/

namespace Example

/-- A binding that already holds an `ErrorOccurred` condition, set at time 1. -/
def errorBinding : SnapshotEnvironmentBinding :=
  { Name := "binding", Namespace := "ns",
    Status := { BindingConditions := [⟨"ErrorOccurred", "True", "ErrorOccurred", "m", 1⟩] } }

/-- A store holding `errorBinding`. -/
def bindingStore : MemStore :=
  { bindings := [errorBinding] }

/-- An Environment that references the claim `claim` and nothing else. -/
def claimEnv : Environment :=
  { Name := "env", Namespace := "ns", UID := "uid-1",
    Spec := { DeploymentTargetClaimName := "claim" } }

/-- An Environment with direct credentials and no claim. -/
def directEnv : Environment :=
  { Name := "env", Namespace := "ns", UID := "uid-1",
    Spec := {
      UnstableConfigurationFields :=
        some { APIURL := "https://direct", ClusterCredentialsSecret := "direct-secret",
               AllowInsecureSkipTLSVerify := true } } }

/-- An Environment with both forms set: the claim `claim` and direct credentials. -/
def bothEnv : Environment :=
  { Name := "env", Namespace := "ns", UID := "uid-1",
    Spec := {
      DeploymentTargetClaimName := "claim",
      UnstableConfigurationFields :=
        some { APIURL := "https://direct", ClusterCredentialsSecret := "direct-secret" } } }

/-- An Environment with neither form set. -/
def emptyEnv : Environment :=
  { Name := "env", Namespace := "ns", UID := "uid-1" }

/-- The claim `claim`, in phase `Bound`. -/
def boundClaim : DeploymentTargetClaim :=
  { Name := "claim", Namespace := "ns", Spec := { TargetName := "dt" },
    Status := { Phase := "Bound" } }

/-- The claim `claim`, in phase `Pending`. -/
def pendingClaim : DeploymentTargetClaim :=
  { Name := "claim", Namespace := "ns", Status := { Phase := "Pending" } }

/-- The target bound to `claim`. -/
def target : DeploymentTarget :=
  { Name := "dt", Namespace := "ns",
    Spec := {
      ClaimRef := "claim",
      KubernetesClusterCredentials := {
        APIURL := "https://dt", ClusterCredentialsSecret := "dt-secret",
        AllowInsecureSkipTLSVerify := true } } }

/-- The secret the target names. -/
def targetSecret : Secret :=
  { Name := "dt-secret", Namespace := "ns" }

/-- The request for the Environment `env` of namespace `ns`. -/
def request : Request :=
  { Namespace := "ns", Name := "env" }

/-- The store with the given Environment, the bound claim, its target and the
target's secret, and no ManagedEnvironment. -/
def boundStore (env : Environment) : MemStore :=
  { environments := [env], claims := [boundClaim], targets := [target],
    secrets := [targetSecret] }

/-- The store with the given Environment and the pending claim. -/
def pendingStore (env : Environment) : MemStore :=
  { environments := [env], claims := [pendingClaim], targets := [target],
    secrets := [targetSecret] }

/-- The desired resource of `claimEnv` in `boundStore`. -/
def desired : GitOpsDeploymentManagedEnvironment :=
  { Name := "managed-environment-env", Namespace := "ns",
    OwnerReferences := [⟨"managed-gitops.redhat.com/v1alpha1", "Environment", "env", "uid-1"⟩],
    Spec := { APIURL := "https://dt", ClusterCredentialsSecret := "dt-secret" } }

/-- A stored ManagedEnvironment of `env` whose Spec is out of date; it carries
a UID, a resource version and a label, and no owner reference. -/
def stale : GitOpsDeploymentManagedEnvironment :=
  { Name := "managed-environment-env", Namespace := "ns", UID := "uid-9",
    ResourceVersion := "41", Labels := [("team", "a")],
    Spec := { APIURL := "https://old", ClusterCredentialsSecret := "old-secret" } }

/-- The store `boundStore claimEnv` with `stale` stored. -/
def driftedStore : MemStore :=
  { environments := [claimEnv], claims := [boundClaim], targets := [target],
    secrets := [targetSecret], managedEnvironments := [stale] }

/-- A stored ManagedEnvironment of `env` with the desired Spec, whose metadata
differs from the desired object: a label, a resource version, no owner. -/
def current : GitOpsDeploymentManagedEnvironment :=
  { Name := "managed-environment-env", Namespace := "ns", UID := "uid-9",
    ResourceVersion := "41", Labels := [("team", "a")],
    Spec := { APIURL := "https://dt", ClusterCredentialsSecret := "dt-secret" } }

/-- The store `boundStore claimEnv` with `current` stored. -/
def convergedStore : MemStore :=
  { environments := [claimEnv], claims := [boundClaim], targets := [target],
    secrets := [targetSecret], managedEnvironments := [current] }

/-- A store with four Environments: two of namespace `ns` that reference
`claim`, one of `ns` that references another claim, and one of another
namespace that references `claim`. -/
def mapperStore : MemStore :=
  { environments := [
      { Name := "env-a", Namespace := "ns", Spec := { DeploymentTargetClaimName := "claim" } },
      { Name := "env-b", Namespace := "ns", Spec := { DeploymentTargetClaimName := "other" } },
      { Name := "env-c", Namespace := "ns", Spec := { DeploymentTargetClaimName := "claim" } },
      { Name := "env-d", Namespace := "elsewhere",
        Spec := { DeploymentTargetClaimName := "claim" } }],
    claims := [boundClaim] }

/-- A binding with three conditions of distinct types; `ErrorOccurred` is the
second. -/
def mixedBinding : SnapshotEnvironmentBinding :=
  { Name := "binding", Namespace := "ns",
    Status := { BindingConditions := [
      ⟨"Ready", "True", "Ok", "fine", 1⟩,
      ⟨"ErrorOccurred", "True", "ErrorOccurred", "m", 2⟩,
      ⟨"Synced", "False", "Pending", "wait", 3⟩] } }

/-- The store with `directEnv` and the secret its credentials name; a
ManagedEnvironment with another Spec is already stored. -/
def directStore : MemStore :=
  { environments := [directEnv], secrets := [{ Name := "direct-secret", Namespace := "ns" }],
    managedEnvironments := [stale] }

/-- The store with the given Environment, the bound claim and its target, and
no secret at all. -/
def missingSecretStore (env : Environment) : MemStore :=
  { environments := [env], claims := [boundClaim], targets := [target] }

/-- A claim named `other` that names the target `dt`. -/
def otherClaim : DeploymentTargetClaim :=
  { Name := "other", Namespace := "ns", Spec := { TargetName := "dt" } }

/-- A claim named `third` that names another target. -/
def thirdClaim : DeploymentTargetClaim :=
  { Name := "third", Namespace := "ns", Spec := { TargetName := "dt-2" } }

/-- The claim `claim` with no `TargetName`; the target `dt` names it in its
`ClaimRef`. -/
def unboundClaim : DeploymentTargetClaim :=
  { Name := "claim", Namespace := "ns" }

/-- A store for the target mapper: the claim `claim` that the target `dt`
names in its `ClaimRef`, the claim `other` that names `dt`, the claim `third`
that does not, and Environments referencing each of them. -/
def targetMapperStore : MemStore :=
  { environments := [
      { Name := "env-a", Namespace := "ns", Spec := { DeploymentTargetClaimName := "claim" } },
      { Name := "env-b", Namespace := "ns", Spec := { DeploymentTargetClaimName := "third" } },
      { Name := "env-c", Namespace := "ns", Spec := { DeploymentTargetClaimName := "other" } },
      { Name := "env-d", Namespace := "elsewhere",
        Spec := { DeploymentTargetClaimName := "claim" } },
      { Name := "env-e", Namespace := "ns" }],
    claims := [unboundClaim, otherClaim, thirdClaim],
    targets := [target] }

/-- The in-memory client with listings that fail: of the claims when
`failClaims` is set, of the Environments when `failEnvironments` is set. -/
def unreliableClient (failClaims failEnvironments : Bool) : Client MemStore :=
  { memClient with
    ListDeploymentTargetClaims := fun s ns =>
      if failClaims then .error ⟨false, "the server is unavailable"⟩
      else memClient.ListDeploymentTargetClaims s ns
    ListEnvironments := fun s ns =>
      if failEnvironments then .error ⟨false, "the server is unavailable"⟩
      else memClient.ListEnvironments s ns }

end Example

/-! ## The binding condition updater -/

/-- C1 (the code departs from the claim): `Example.errorBinding` holds the
condition `ErrorOccurred` with status `True`, reason `ErrorOccurred`, message
`m` and LastTransitionTime 1; calling the updater at time 2 with the identical
type, status, reason and message leaves a condition whose LastTransitionTime is
2, not 1. -/
theorem C1_identical_call_moves_LastTransitionTime :
    Example.errorBinding.Status.BindingConditions =
        [⟨"ErrorOccurred", "True", "ErrorOccurred", "m", 1⟩] ∧
      (updateStatusConditionOfEnvironmentBinding memClient Example.bindingStore 2 "m"
        Example.errorBinding "ErrorOccurred" "True" "ErrorOccurred").1.Status.BindingConditions =
        [⟨"ErrorOccurred", "True", "ErrorOccurred", "m", 2⟩] := by
  decide

/-! ## The resolver -/

/-- With a claim name set, the resolver takes the branch of lines 205-239 and
never looks at the direct credentials. -/
theorem generateDesiredResource_claim_ignores_fields {σ : Type} (d : Deps σ) (c : Client σ)
    (s : σ) (env : Environment) (hclaim : env.GetDeploymentTargetClaimName ≠ "") :
    generateDesiredResource d c s env =
      generateDesiredResource d c s
        { env with Spec := { env.Spec with UnstableConfigurationFields := none } } := by
  have h2 : Environment.GetDeploymentTargetClaimName
      { env with Spec := { env.Spec with UnstableConfigurationFields := none } } ≠ "" := hclaim
  unfold generateDesiredResource
  simp only [if_pos hclaim, if_pos h2]
  rfl

/-! ## The paths of `Reconcile` -/

/-- Line 96-98: an Environment with both forms set is rejected once fetched. -/
theorem Reconcile_both_forms {σ : Type} (d : Deps σ) (c : Client σ) (s : σ) (req : Request)
    (env : Environment)
    (hns : d.isRequestNamespaceBeingDeleted s req.Namespace = (false, none))
    (henv : c.GetEnvironment s ⟨req.Namespace, req.Name⟩ = .ok env)
    (hclaim : env.GetDeploymentTargetClaimName ≠ "")
    (hfields : env.Spec.UnstableConfigurationFields ≠ none) :
    Reconcile d c s req = ⟨some (invalidEnvironmentError env), s, preamble req⟩ := by
  simp [Reconcile, hns, henv, hclaim, hfields, invalidEnvironmentError, preamble]

/-- Lines 100-106: what `Reconcile` does with a resolver result that is not a
desired object. -/
theorem Reconcile_resolver_none {σ : Type} (d : Deps σ) (c : Client σ) (s : σ) (req : Request)
    (env : Environment) (calls : List Call)
    (hns : d.isRequestNamespaceBeingDeleted s req.Namespace = (false, none))
    (henv : c.GetEnvironment s ⟨req.Namespace, req.Name⟩ = .ok env)
    (hvalid : ¬ (env.GetDeploymentTargetClaimName ≠ "" ∧
      env.Spec.UnstableConfigurationFields ≠ none))
    (hres : generateDesiredResource d c s env = (.ok none, calls)) :
    Reconcile d c s req = ⟨none, s, preamble req ++ calls⟩ := by
  simp only [Reconcile, hns, henv, hres, preamble]
  simp [hvalid]

/-- Lines 108-121: with a desired object and no stored ManagedEnvironment,
`Reconcile` issues one `Create` of the desired object and returns its error. -/
theorem Reconcile_create {σ : Type} (d : Deps σ) (c : Client σ) (s : σ) (req : Request)
    (env : Environment) (calls : List Call) (desired : GitOpsDeploymentManagedEnvironment)
    (err : GoError)
    (hns : d.isRequestNamespaceBeingDeleted s req.Namespace = (false, none))
    (henv : c.GetEnvironment s ⟨req.Namespace, req.Name⟩ = .ok env)
    (hvalid : ¬ (env.GetDeploymentTargetClaimName ≠ "" ∧
      env.Spec.UnstableConfigurationFields ≠ none))
    (hres : generateDesiredResource d c s env = (.ok (some desired), calls))
    (hget : c.GetManagedEnvironment s (managedEnvironmentKey env) = .error err)
    (hnf : err.IsNotFound = true) :
    Reconcile d c s req =
      ⟨(c.Create s desired).2.map createError, (c.Create s desired).1,
        preamble req ++ calls ++
          [.GetManagedEnvironment (managedEnvironmentKey env), .Create desired]⟩ := by
  have hkey : ObjectKeyFromObject
      (generateEmptyManagedEnvironment env.Name env.Namespace).toObjectMeta =
      managedEnvironmentKey env := rfl
  simp only [Reconcile, hns, henv, hres, preamble, hkey, hget, hnf]
  rcases hc : c.Create s desired with ⟨s1, _ | e⟩ <;>
    simp [hvalid, createError]

/-- Lines 130-134: with a stored ManagedEnvironment whose Spec is the desired
Spec, `Reconcile` stops after the fetch. -/
theorem Reconcile_match {σ : Type} (d : Deps σ) (c : Client σ) (s : σ) (req : Request)
    (env : Environment) (calls : List Call)
    (desired current : GitOpsDeploymentManagedEnvironment)
    (hns : d.isRequestNamespaceBeingDeleted s req.Namespace = (false, none))
    (henv : c.GetEnvironment s ⟨req.Namespace, req.Name⟩ = .ok env)
    (hvalid : ¬ (env.GetDeploymentTargetClaimName ≠ "" ∧
      env.Spec.UnstableConfigurationFields ≠ none))
    (hres : generateDesiredResource d c s env = (.ok (some desired), calls))
    (hget : c.GetManagedEnvironment s (managedEnvironmentKey env) = .ok current)
    (hspec : current.Spec = desired.Spec) :
    Reconcile d c s req =
      ⟨none, s, preamble req ++ calls ++
        [.GetManagedEnvironment (managedEnvironmentKey env)]⟩ := by
  have hkey : ObjectKeyFromObject
      (generateEmptyManagedEnvironment env.Name env.Namespace).toObjectMeta =
      managedEnvironmentKey env := rfl
  simp only [Reconcile, hns, henv, hres, preamble, hkey, hget]
  simp [hvalid, hspec]

/-- Lines 136-147: with a stored ManagedEnvironment whose Spec is not the
desired Spec, `Reconcile` issues one `Update` of the stored object with the
desired Spec and returns its error. -/
theorem Reconcile_update {σ : Type} (d : Deps σ) (c : Client σ) (s : σ) (req : Request)
    (env : Environment) (calls : List Call)
    (desired current : GitOpsDeploymentManagedEnvironment)
    (hns : d.isRequestNamespaceBeingDeleted s req.Namespace = (false, none))
    (henv : c.GetEnvironment s ⟨req.Namespace, req.Name⟩ = .ok env)
    (hvalid : ¬ (env.GetDeploymentTargetClaimName ≠ "" ∧
      env.Spec.UnstableConfigurationFields ≠ none))
    (hres : generateDesiredResource d c s env = (.ok (some desired), calls))
    (hget : c.GetManagedEnvironment s (managedEnvironmentKey env) = .ok current)
    (hspec : current.Spec ≠ desired.Spec) :
    Reconcile d c s req =
      ⟨(c.Update s { current with Spec := desired.Spec }).2.map (updateError current.Name),
        (c.Update s { current with Spec := desired.Spec }).1,
        preamble req ++ calls ++
          [.GetManagedEnvironment (managedEnvironmentKey env),
           .Update { current with Spec := desired.Spec }]⟩ := by
  have hkey : ObjectKeyFromObject
      (generateEmptyManagedEnvironment env.Name env.Namespace).toObjectMeta =
      managedEnvironmentKey env := rfl
  simp only [Reconcile, hns, henv, hres, preamble, hkey, hget]
  rcases hc : c.Update s { current with Spec := desired.Spec } with ⟨s1, _ | e⟩ <;>
    simp [hvalid, hspec, updateError]

/-- The writes of a concatenation. -/
theorem writes_append (xs ys : List Call) : writes (xs ++ ys) = writes xs ++ writes ys := by
  simp [writes]

/-- The preamble of `Reconcile` only reads. -/
theorem writes_preamble (req : Request) : writes (preamble req) = [] := by
  simp [writes, preamble, Call.isWrite]

/-- The calls of lines 254-280: the calls so far, then the fetch of the secret. -/
theorem build_calls {σ : Type} (d : Deps σ) (c : Client σ) (s : σ) (env : Environment)
    (details : GitOpsDeploymentManagedEnvironmentSpec) (calls : List Call) :
    (generateDesiredResource.build d c s env details calls).2 =
      calls ++ [.GetSecret ⟨env.Namespace, details.ClusterCredentialsSecret⟩] := by
  simp only [generateDesiredResource.build]
  split
  · split <;> rfl
  · rfl

/-- When the secret exists, lines 254-280 return the object of lines 269-280. -/
theorem build_of_secret {σ : Type} (d : Deps σ) (c : Client σ) (s : σ) (env : Environment)
    (details : GitOpsDeploymentManagedEnvironmentSpec) (calls : List Call) (secret : Secret)
    (hsecret : c.GetSecret s ⟨env.Namespace, details.ClusterCredentialsSecret⟩ = .ok secret) :
    generateDesiredResource.build d c s env details calls =
      (.ok (some (desiredFor d env details)),
        calls ++ [.GetSecret ⟨env.Namespace, details.ClusterCredentialsSecret⟩]) := by
  simp only [generateDesiredResource.build, hsecret]
  rfl

/-- A desired object returned by lines 254-280 is the object of lines 269-280. -/
theorem build_ok {σ : Type} (d : Deps σ) (c : Client σ) (s : σ) (env : Environment)
    (details : GitOpsDeploymentManagedEnvironmentSpec) (calls : List Call)
    (desired : GitOpsDeploymentManagedEnvironment)
    (hres : (generateDesiredResource.build d c s env details calls).1 = .ok (some desired)) :
    desired = desiredFor d env details := by
  simp only [generateDesiredResource.build] at hres
  split at hres
  · split at hres <;> cases hres
  · cases hres
    rfl

/-- A desired object returned by the resolver is the object of lines 269-280
for some Spec. -/
theorem generateDesiredResource_ok {σ : Type} (d : Deps σ) (c : Client σ) (s : σ)
    (env : Environment) (desired : GitOpsDeploymentManagedEnvironment)
    (hres : (generateDesiredResource d c s env).1 = .ok (some desired)) :
    desired = desiredFor d env desired.Spec := by
  simp only [generateDesiredResource] at hres
  split at hres
  · split at hres
    · cases hres
    · split at hres
      · cases hres
      · split at hres
        · cases hres
        · cases hres
        · rw [build_ok d c s env _ _ desired hres]
          rfl
  · split at hres
    · rw [build_ok d c s env _ _ desired hres]
      rfl
    · cases hres

/-- The resolver only reads: none of its calls is a write. -/
theorem writes_generateDesiredResource {σ : Type} (d : Deps σ) (c : Client σ) (s : σ)
    (env : Environment) : writes (generateDesiredResource d c s env).2 = [] := by
  simp only [generateDesiredResource]
  split
  · split
    · rfl
    · split
      · rfl
      · split
        · rfl
        · rfl
        · rw [build_calls]
          rfl
  · split
    · rw [build_calls]
      rfl
    · rfl

/-- The resolver depends on the store through the claim, bound-target and
secret lookups only. -/
theorem generateDesiredResource_congr {σ : Type} (d : Deps σ) (c : Client σ) (s t : σ)
    (env : Environment)
    (hdtc : ∀ key, c.GetDeploymentTargetClaim t key = c.GetDeploymentTargetClaim s key)
    (hdt : ∀ dtc, d.getDTBoundByDTC t dtc = d.getDTBoundByDTC s dtc)
    (hsecret : ∀ key, c.GetSecret t key = c.GetSecret s key) :
    generateDesiredResource d c t env = generateDesiredResource d c s env := by
  simp only [generateDesiredResource, generateDesiredResource.build, hdtc, hdt, hsecret]

/-! ## The claims on the resolver and on `Reconcile` -/

/-- C2, as stated, fails: `Example.bothEnv` has both the claim name `claim` and
direct credentials, and in the store `Example.boundStore` the resolver returns
no error but the desired object built from the bound target. -/
theorem C2_resolver_accepts_both_forms :
    Example.bothEnv.GetDeploymentTargetClaimName ≠ "" ∧
      Example.bothEnv.Spec.UnstableConfigurationFields ≠ none ∧
      (generateDesiredResource memDeps memClient (Example.boundStore Example.bothEnv)
        Example.bothEnv).1 = .ok (some Example.desired) := by
  decide

/-- C2, amended: for an Environment with both a non-empty claim name and
direct credentials, `generateDesiredResource` returns, in every store state,
exactly what it returns for the same Environment without the direct credentials
(it resolves through the claim); the invalid-configuration error is returned by
`Reconcile`, which rejects such an Environment once fetched, after the
namespace check and the fetch and before any call of the resolver. -/
theorem C2_both_forms_resolved_by_claim_rejected_by_Reconcile {σ : Type} (d : Deps σ)
    (c : Client σ) (s : σ) (env : Environment)
    (hclaim : env.GetDeploymentTargetClaimName ≠ "")
    (hfields : env.Spec.UnstableConfigurationFields ≠ none) :
    generateDesiredResource d c s env =
        generateDesiredResource d c s
          { env with Spec := { env.Spec with UnstableConfigurationFields := none } } ∧
      ∀ req : Request,
        d.isRequestNamespaceBeingDeleted s req.Namespace = (false, none) →
        c.GetEnvironment s ⟨req.Namespace, req.Name⟩ = .ok env →
        (Reconcile d c s req).err = some (invalidEnvironmentError env) ∧
          (Reconcile d c s req).calls = preamble req := by
  refine ⟨generateDesiredResource_claim_ignores_fields d c s env hclaim, ?_⟩
  intro req hns henv
  rw [Reconcile_both_forms d c s req env hns henv hclaim hfields]
  exact ⟨rfl, rfl⟩

/-- C2, amended, at `Example.bothEnv` in `Example.boundStore`. -/
theorem C2_both_forms_witness :
    generateDesiredResource memDeps memClient (Example.boundStore Example.bothEnv)
        Example.bothEnv =
        generateDesiredResource memDeps memClient (Example.boundStore Example.bothEnv)
          Example.claimEnv ∧
      (Reconcile memDeps memClient (Example.boundStore Example.bothEnv) Example.request).err =
        some (invalidEnvironmentError Example.bothEnv) ∧
      (Reconcile memDeps memClient (Example.boundStore Example.bothEnv) Example.request).calls =
        preamble Example.request :=
  have h := C2_both_forms_resolved_by_claim_rejected_by_Reconcile memDeps memClient
    (Example.boundStore Example.bothEnv) Example.bothEnv (by decide) (by decide)
  ⟨h.1, h.2 Example.request rfl rfl⟩

/-- C3: let `Reconcile` reach the resolver for the fetched Environment (the
namespace is not being deleted, the Environment is fetched and does not have
both forms set) and the resolver return a desired object; let no
ManagedEnvironment be stored under the deterministic name, and let `Create`
persist the object verbatim and change nothing else.  Then the first run issues
exactly one write, the `Create` of the desired object, and returns no error;
the second run, from the store the first one left, issues no write, returns no
error and leaves that store as it is. -/
theorem C3_reconcile_twice_creates_once {σ : Type} (d : Deps σ) (c : Client σ) (s : σ)
    (req : Request) (env : Environment) (desired : GitOpsDeploymentManagedEnvironment)
    (err : GoError)
    (hns : d.isRequestNamespaceBeingDeleted s req.Namespace = (false, none))
    (henv : c.GetEnvironment s ⟨req.Namespace, req.Name⟩ = .ok env)
    (hvalid : ¬ (env.GetDeploymentTargetClaimName ≠ "" ∧
      env.Spec.UnstableConfigurationFields ≠ none))
    (hres : (generateDesiredResource d c s env).1 = .ok (some desired))
    (habsent : c.GetManagedEnvironment s (managedEnvironmentKey env) = .error err)
    (hnotFound : err.IsNotFound = true)
    (hcreate : CreatePersistsVerbatim d c s desired) :
    writes (Reconcile d c s req).calls = [.Create desired] ∧
      (Reconcile d c s req).err = none ∧
      (Reconcile d c s req).store = (c.Create s desired).1 ∧
      writes (Reconcile d c (Reconcile d c s req).store req).calls = [] ∧
      (Reconcile d c (Reconcile d c s req).store req).err = none ∧
      (Reconcile d c (Reconcile d c s req).store req).store = (Reconcile d c s req).store := by
  have hpair : generateDesiredResource d c s env =
      (.ok (some desired), (generateDesiredResource d c s env).2) := Prod.ext hres rfl
  have hw := writes_generateDesiredResource d c s env
  have hfirst := Reconcile_create d c s req env _ desired err hns henv hvalid hpair habsent
    hnotFound
  have hkey : ObjectKeyFromObject desired.toObjectMeta = managedEnvironmentKey env := by
    rw [generateDesiredResource_ok d c s env desired hres]
    rfl
  have hpair2 : generateDesiredResource d c (c.Create s desired).1 env =
      (.ok (some desired), (generateDesiredResource d c s env).2) := by
    rw [generateDesiredResource_congr d c s _ env hcreate.claims hcreate.targets hcreate.secrets]
    exact hpair
  have hstored := hcreate.stored
  rw [hkey] at hstored
  have hsecond := Reconcile_match d c (c.Create s desired).1 req env _ desired desired
    ((hcreate.namespaces _).trans hns) ((hcreate.environments _).trans henv) hvalid hpair2
    hstored rfl
  rw [hfirst]
  simp only [hsecond, hcreate.succeeds, writes_append, writes_preamble, hw, Option.map_none',
    List.nil_append, and_true, true_and]
  exact ⟨rfl, rfl⟩

/-- C3 at `Example.claimEnv` in `Example.boundStore`: the first run creates
`Example.desired`, the second run writes nothing. -/
theorem C3_reconcile_twice_witness :
    writes (Reconcile memDeps memClient (Example.boundStore Example.claimEnv)
        Example.request).calls = [.Create Example.desired] ∧
      (Reconcile memDeps memClient (Example.boundStore Example.claimEnv)
        Example.request).err = none ∧
      (Reconcile memDeps memClient (Example.boundStore Example.claimEnv)
        Example.request).store =
        (memClient.Create (Example.boundStore Example.claimEnv) Example.desired).1 ∧
      writes (Reconcile memDeps memClient
        (Reconcile memDeps memClient (Example.boundStore Example.claimEnv)
          Example.request).store Example.request).calls = [] ∧
      (Reconcile memDeps memClient
        (Reconcile memDeps memClient (Example.boundStore Example.claimEnv)
          Example.request).store Example.request).err = none ∧
      (Reconcile memDeps memClient
        (Reconcile memDeps memClient (Example.boundStore Example.claimEnv)
          Example.request).store Example.request).store =
        (Reconcile memDeps memClient (Example.boundStore Example.claimEnv)
          Example.request).store :=
  C3_reconcile_twice_creates_once memDeps memClient (Example.boundStore Example.claimEnv)
    Example.request Example.claimEnv Example.desired
    (MemStore.notFound (managedEnvironmentKey Example.claimEnv))
    rfl rfl (by decide) (by decide) rfl rfl
    ⟨rfl, by decide, fun _ => rfl, fun _ => rfl, fun _ => rfl, fun _ => rfl, fun _ => rfl⟩

/-- C4: when `Reconcile` reaches the resolver for the fetched Environment, the
resolver returns a desired object and the ManagedEnvironment stored under the
deterministic name has another Spec than the desired one, the writes of the
run are exactly one `Update`, of the stored object with its Spec replaced by
the desired Spec and every other field as stored. -/
theorem C4_update_on_drift {σ : Type} (d : Deps σ) (c : Client σ) (s : σ)
    (req : Request) (env : Environment)
    (desired current : GitOpsDeploymentManagedEnvironment)
    (hns : d.isRequestNamespaceBeingDeleted s req.Namespace = (false, none))
    (henv : c.GetEnvironment s ⟨req.Namespace, req.Name⟩ = .ok env)
    (hvalid : ¬ (env.GetDeploymentTargetClaimName ≠ "" ∧
      env.Spec.UnstableConfigurationFields ≠ none))
    (hres : (generateDesiredResource d c s env).1 = .ok (some desired))
    (hstored : c.GetManagedEnvironment s (managedEnvironmentKey env) = .ok current)
    (hdrift : current.Spec ≠ desired.Spec) :
    writes (Reconcile d c s req).calls =
      [.Update { toObjectMeta := current.toObjectMeta, Spec := desired.Spec }] := by
  have hpair : generateDesiredResource d c s env =
      (.ok (some desired), (generateDesiredResource d c s env).2) := Prod.ext hres rfl
  rw [Reconcile_update d c s req env _ desired current hns henv hvalid hpair hstored hdrift]
  simp only [writes_append, writes_preamble, writes_generateDesiredResource, List.nil_append]
  rfl

/-- C4 at `Example.driftedStore`: the one write is the `Update` of
`Example.stale` with the desired Spec; its UID, resource version and label are
the stored ones and it still has no owner reference. -/
theorem C4_update_on_drift_witness :
    writes (Reconcile memDeps memClient Example.driftedStore Example.request).calls =
      [.Update
        { Name := "managed-environment-env", Namespace := "ns", UID := "uid-9",
          ResourceVersion := "41", Labels := [("team", "a")], OwnerReferences := [],
          Spec := { APIURL := "https://dt", ClusterCredentialsSecret := "dt-secret",
                    AllowInsecureSkipTLSVerify := false } }] :=
  C4_update_on_drift memDeps memClient Example.driftedStore Example.request Example.claimEnv
    Example.desired Example.stale rfl rfl (by decide) (by decide) rfl (by decide)

/-- The resolver on an Environment that names a Bound claim whose target is
found and whose target's secret exists: the claim, the target and the secret
are read, and the desired object carries the target's APIURL and secret name. -/
theorem generateDesiredResource_bound {σ : Type} (d : Deps σ) (c : Client σ) (s : σ)
    (env : Environment) (dtc : DeploymentTargetClaim) (dt : DeploymentTarget) (secret : Secret)
    (hclaim : env.GetDeploymentTargetClaimName ≠ "")
    (hdtc : c.GetDeploymentTargetClaim s ⟨env.Namespace, env.GetDeploymentTargetClaimName⟩ =
      .ok dtc)
    (hbound : dtc.Status.Phase = DeploymentTargetClaimPhase_Bound)
    (hdt : d.getDTBoundByDTC s dtc = .ok (some dt))
    (hsecret : c.GetSecret s
      ⟨env.Namespace, dt.Spec.KubernetesClusterCredentials.ClusterCredentialsSecret⟩ =
      .ok secret) :
    generateDesiredResource d c s env =
      (.ok (some (desiredFor d env
        { APIURL := dt.Spec.KubernetesClusterCredentials.APIURL,
          ClusterCredentialsSecret :=
            dt.Spec.KubernetesClusterCredentials.ClusterCredentialsSecret })),
        [.GetDeploymentTargetClaim ⟨env.Namespace, env.GetDeploymentTargetClaimName⟩,
         .getDTBoundByDTC dtc,
         .GetSecret
          ⟨env.Namespace, dt.Spec.KubernetesClusterCredentials.ClusterCredentialsSecret⟩]) := by
  simp only [generateDesiredResource, if_pos hclaim, hdtc, hdt]
  rw [if_neg (fun h => h hbound)]
  rw [build_of_secret d c s env _ _ secret hsecret]
  rfl

/-- C5: for an Environment, fetched by `Reconcile` in a namespace not being
deleted, that has no direct credentials and names a claim whose phase is
Bound, for which the bound-target lookup returns `dt` and the secret `dt`
names exists in the Environment's namespace, and with no ManagedEnvironment
stored under the deterministic name, the writes of the run are exactly one
`Create`.  The created object is named `managed-environment-` followed by the
Environment's name, lies in the Environment's namespace, has the APIURL and
ClusterCredentialsSecret of `dt` in its Spec and the insecure flag unset, has
one owner reference, of kind `Environment` with the Environment's name and
UID, and has no other metadata. -/
theorem C5_bound_claim_creates_managed_environment {σ : Type} (d : Deps σ) (c : Client σ)
    (s : σ) (req : Request) (env : Environment) (dtc : DeploymentTargetClaim)
    (dt : DeploymentTarget) (secret : Secret) (err : GoError)
    (hns : d.isRequestNamespaceBeingDeleted s req.Namespace = (false, none))
    (henv : c.GetEnvironment s ⟨req.Namespace, req.Name⟩ = .ok env)
    (hfields : env.Spec.UnstableConfigurationFields = none)
    (hclaim : env.GetDeploymentTargetClaimName ≠ "")
    (hdtc : c.GetDeploymentTargetClaim s ⟨env.Namespace, env.GetDeploymentTargetClaimName⟩ =
      .ok dtc)
    (hbound : dtc.Status.Phase = DeploymentTargetClaimPhase_Bound)
    (hdt : d.getDTBoundByDTC s dtc = .ok (some dt))
    (hsecret : c.GetSecret s
      ⟨env.Namespace, dt.Spec.KubernetesClusterCredentials.ClusterCredentialsSecret⟩ =
      .ok secret)
    (habsent : c.GetManagedEnvironment s (managedEnvironmentKey env) = .error err)
    (hnotFound : err.IsNotFound = true) :
    writes (Reconcile d c s req).calls =
      [.Create
        { Name := "managed-environment-" ++ env.Name,
          Namespace := env.Namespace,
          UID := "", ResourceVersion := "", Labels := [],
          OwnerReferences := [
            { APIVersion := d.GroupVersion.Group ++ "/" ++ d.GroupVersion.Version,
              Kind := "Environment", Name := env.Name, UID := env.UID }],
          Spec :=
            { APIURL := dt.Spec.KubernetesClusterCredentials.APIURL,
              ClusterCredentialsSecret :=
                dt.Spec.KubernetesClusterCredentials.ClusterCredentialsSecret,
              AllowInsecureSkipTLSVerify := false } }] := by
  have hres := generateDesiredResource_bound d c s env dtc dt secret hclaim hdtc hbound hdt
    hsecret
  have hvalid : ¬ (env.GetDeploymentTargetClaimName ≠ "" ∧
      env.Spec.UnstableConfigurationFields ≠ none) := fun h => h.2 hfields
  rw [Reconcile_create d c s req env _ _ err hns henv hvalid hres habsent hnotFound]
  simp only [writes_append, writes_preamble, List.nil_append]
  rfl

/-- C5 at `Example.claimEnv` in `Example.boundStore`: the one write is the
`Create` of `managed-environment-env` with the target's URL and secret; the
target's insecure flag, which is set, is not copied. -/
theorem C5_bound_claim_witness :
    Example.target.Spec.KubernetesClusterCredentials.AllowInsecureSkipTLSVerify = true ∧
      writes (Reconcile memDeps memClient (Example.boundStore Example.claimEnv)
        Example.request).calls =
      [.Create
        { Name := "managed-environment-env", Namespace := "ns",
          UID := "", ResourceVersion := "", Labels := [],
          OwnerReferences := [
            { APIVersion := "managed-gitops.redhat.com/v1alpha1",
              Kind := "Environment", Name := "env", UID := "uid-1" }],
          Spec :=
            { APIURL := "https://dt", ClusterCredentialsSecret := "dt-secret",
              AllowInsecureSkipTLSVerify := false } }] :=
  ⟨rfl, C5_bound_claim_creates_managed_environment memDeps memClient
    (Example.boundStore Example.claimEnv) Example.request Example.claimEnv Example.boundClaim
    Example.target Example.targetSecret
    (MemStore.notFound (managedEnvironmentKey Example.claimEnv))
    rfl rfl rfl (by decide) rfl rfl rfl rfl rfl rfl⟩

/-- C6: for an Environment that `Reconcile` fetches in a namespace not being
deleted and that has both a non-empty claim name and direct credentials,
`Reconcile` returns an error, issues no write and leaves the store as it was. -/
theorem C6_both_forms_error_without_writes {σ : Type} (d : Deps σ) (c : Client σ) (s : σ)
    (req : Request) (env : Environment)
    (hns : d.isRequestNamespaceBeingDeleted s req.Namespace = (false, none))
    (henv : c.GetEnvironment s ⟨req.Namespace, req.Name⟩ = .ok env)
    (hclaim : env.GetDeploymentTargetClaimName ≠ "")
    (hfields : env.Spec.UnstableConfigurationFields ≠ none) :
    (Reconcile d c s req).err ≠ none ∧
      writes (Reconcile d c s req).calls = [] ∧
      (Reconcile d c s req).store = s := by
  rw [Reconcile_both_forms d c s req env hns henv hclaim hfields]
  exact ⟨by simp, writes_preamble req, rfl⟩

/-- C6 at `Example.bothEnv` in `Example.boundStore`, where the claim is Bound
and its target and secret exist. -/
theorem C6_both_forms_witness :
    (Reconcile memDeps memClient (Example.boundStore Example.bothEnv) Example.request).err ≠
        none ∧
      writes (Reconcile memDeps memClient (Example.boundStore Example.bothEnv)
        Example.request).calls = [] ∧
      (Reconcile memDeps memClient (Example.boundStore Example.bothEnv) Example.request).store =
        Example.boundStore Example.bothEnv :=
  C6_both_forms_error_without_writes memDeps memClient (Example.boundStore Example.bothEnv)
    Example.request Example.bothEnv rfl rfl (by decide) (by decide)

/-- C7: for an Environment with an empty claim name and no direct
credentials, `generateDesiredResource` returns `nil, nil` and issues no call to
the store, whatever the client and the store are; and a run of `Reconcile`
that fetches this Environment returns no error, issues no write and leaves the
store as it was. -/
theorem C7_nothing_configured {σ : Type} (d : Deps σ) (c : Client σ) (s : σ)
    (env : Environment)
    (hclaim : env.GetDeploymentTargetClaimName = "")
    (hfields : env.Spec.UnstableConfigurationFields = none) :
    generateDesiredResource d c s env = (.ok none, []) ∧
      ∀ req : Request,
        d.isRequestNamespaceBeingDeleted s req.Namespace = (false, none) →
        c.GetEnvironment s ⟨req.Namespace, req.Name⟩ = .ok env →
        (Reconcile d c s req).err = none ∧
          writes (Reconcile d c s req).calls = [] ∧
          (Reconcile d c s req).store = s := by
  have hres : generateDesiredResource d c s env = (.ok none, []) := by
    simp only [generateDesiredResource, hclaim, hfields]
    rfl
  refine ⟨hres, ?_⟩
  intro req hns henv
  have hvalid : ¬ (env.GetDeploymentTargetClaimName ≠ "" ∧
      env.Spec.UnstableConfigurationFields ≠ none) := fun h => h.1 hclaim
  rw [Reconcile_resolver_none d c s req env [] hns henv hvalid hres]
  exact ⟨rfl, by rw [List.append_nil]; exact writes_preamble req, rfl⟩

/-- C7 at `Example.emptyEnv`, in a store where a Bound claim, its target and
the secret exist. -/
theorem C7_nothing_configured_witness :
    generateDesiredResource memDeps memClient (Example.boundStore Example.emptyEnv)
        Example.emptyEnv = (.ok none, []) ∧
      (Reconcile memDeps memClient (Example.boundStore Example.emptyEnv)
        Example.request).err = none ∧
      writes (Reconcile memDeps memClient (Example.boundStore Example.emptyEnv)
        Example.request).calls = [] ∧
      (Reconcile memDeps memClient (Example.boundStore Example.emptyEnv)
        Example.request).store = Example.boundStore Example.emptyEnv :=
  have h := C7_nothing_configured memDeps memClient (Example.boundStore Example.emptyEnv)
    Example.emptyEnv rfl rfl
  ⟨h.1, h.2 Example.request rfl rfl⟩

/-- C8, as stated, fails: `Example.bothEnv` names the claim `claim`, which
exists in its namespace in phase `Pending`; the resolver returns `nil, nil`,
but `Reconcile` for this Environment returns an error, because the Environment
also has direct credentials. -/
theorem C8_unbound_claim_with_credentials_is_error :
    memClient.GetEnvironment (Example.pendingStore Example.bothEnv) ⟨"ns", "env"⟩ =
        .ok Example.bothEnv ∧
      memClient.GetDeploymentTargetClaim (Example.pendingStore Example.bothEnv)
        ⟨Example.bothEnv.Namespace, Example.bothEnv.GetDeploymentTargetClaimName⟩ =
        .ok Example.pendingClaim ∧
      Example.pendingClaim.Status.Phase ≠ DeploymentTargetClaimPhase_Bound ∧
      (generateDesiredResource memDeps memClient (Example.pendingStore Example.bothEnv)
        Example.bothEnv).1 = .ok none ∧
      (Reconcile memDeps memClient (Example.pendingStore Example.bothEnv)
        Example.request).err = some (invalidEnvironmentError Example.bothEnv) := by
  decide

/-- C8, amended: for an Environment naming a claim that exists in its
namespace with a phase other than Bound, `generateDesiredResource` returns
`nil, nil` after reading the claim only, whatever targets and secrets exist;
and a run of `Reconcile` that fetches this Environment issues no write and
leaves the store as it was, returning no error when the Environment has no
direct credentials and the invalid-configuration error when it has. -/
theorem C8_unbound_claim_not_ready {σ : Type} (d : Deps σ) (c : Client σ) (s : σ)
    (env : Environment) (dtc : DeploymentTargetClaim)
    (hclaim : env.GetDeploymentTargetClaimName ≠ "")
    (hdtc : c.GetDeploymentTargetClaim s ⟨env.Namespace, env.GetDeploymentTargetClaimName⟩ =
      .ok dtc)
    (hphase : dtc.Status.Phase ≠ DeploymentTargetClaimPhase_Bound) :
    generateDesiredResource d c s env =
        (.ok none,
          [.GetDeploymentTargetClaim ⟨env.Namespace, env.GetDeploymentTargetClaimName⟩]) ∧
      ∀ req : Request,
        d.isRequestNamespaceBeingDeleted s req.Namespace = (false, none) →
        c.GetEnvironment s ⟨req.Namespace, req.Name⟩ = .ok env →
        writes (Reconcile d c s req).calls = [] ∧
          (Reconcile d c s req).store = s ∧
          (env.Spec.UnstableConfigurationFields = none → (Reconcile d c s req).err = none) ∧
          (env.Spec.UnstableConfigurationFields ≠ none →
            (Reconcile d c s req).err = some (invalidEnvironmentError env)) := by
  have hres : generateDesiredResource d c s env =
      (.ok none,
        [.GetDeploymentTargetClaim ⟨env.Namespace, env.GetDeploymentTargetClaimName⟩]) := by
    simp only [generateDesiredResource, if_pos hclaim, hdtc, if_pos hphase]
  refine ⟨hres, ?_⟩
  intro req hns henv
  by_cases hfields : env.Spec.UnstableConfigurationFields = none
  · have hvalid : ¬ (env.GetDeploymentTargetClaimName ≠ "" ∧
        env.Spec.UnstableConfigurationFields ≠ none) := fun h => h.2 hfields
    rw [Reconcile_resolver_none d c s req env _ hns henv hvalid hres]
    refine ⟨?_, rfl, fun _ => rfl, fun h => absurd hfields h⟩
    rw [writes_append, writes_preamble]
    rfl
  · rw [Reconcile_both_forms d c s req env hns henv hclaim hfields]
    exact ⟨writes_preamble req, rfl, fun h => absurd h hfields, fun _ => rfl⟩

/-- C8, amended, at `Example.claimEnv` in `Example.pendingStore`, where the
target and its secret exist but the claim is `Pending`. -/
theorem C8_unbound_claim_witness :
    generateDesiredResource memDeps memClient (Example.pendingStore Example.claimEnv)
        Example.claimEnv = (.ok none, [.GetDeploymentTargetClaim ⟨"ns", "claim"⟩]) ∧
      writes (Reconcile memDeps memClient (Example.pendingStore Example.claimEnv)
        Example.request).calls = [] ∧
      (Reconcile memDeps memClient (Example.pendingStore Example.claimEnv)
        Example.request).store = Example.pendingStore Example.claimEnv ∧
      (Reconcile memDeps memClient (Example.pendingStore Example.claimEnv)
        Example.request).err = none :=
  have h := C8_unbound_claim_not_ready memDeps memClient
    (Example.pendingStore Example.claimEnv) Example.claimEnv Example.pendingClaim
    (by decide) rfl (by decide)
  have hr := h.2 Example.request rfl rfl
  ⟨h.1, hr.1, hr.2.1, hr.2.2.1 rfl⟩

/-- C9: when `Reconcile` reaches the resolver for the fetched Environment, the
resolver returns a desired object and the ManagedEnvironment stored under the
deterministic name has a Spec equal to the desired Spec, `Reconcile` returns no
error, issues no write and leaves the store as it was, whatever the other
fields of the stored object are. -/
theorem C9_no_write_on_match {σ : Type} (d : Deps σ) (c : Client σ) (s : σ)
    (req : Request) (env : Environment)
    (desired current : GitOpsDeploymentManagedEnvironment)
    (hns : d.isRequestNamespaceBeingDeleted s req.Namespace = (false, none))
    (henv : c.GetEnvironment s ⟨req.Namespace, req.Name⟩ = .ok env)
    (hvalid : ¬ (env.GetDeploymentTargetClaimName ≠ "" ∧
      env.Spec.UnstableConfigurationFields ≠ none))
    (hres : (generateDesiredResource d c s env).1 = .ok (some desired))
    (hstored : c.GetManagedEnvironment s (managedEnvironmentKey env) = .ok current)
    (hmatch : current.Spec = desired.Spec) :
    (Reconcile d c s req).err = none ∧
      writes (Reconcile d c s req).calls = [] ∧
      (Reconcile d c s req).store = s := by
  have hpair : generateDesiredResource d c s env =
      (.ok (some desired), (generateDesiredResource d c s env).2) := Prod.ext hres rfl
  rw [Reconcile_match d c s req env _ desired current hns henv hvalid hpair hstored hmatch]
  refine ⟨rfl, ?_, rfl⟩
  simp only [writes_append, writes_preamble, writes_generateDesiredResource, List.nil_append]
  rfl

/-- C9 at `Example.convergedStore`: the stored object has the desired Spec, but
a label, a UID and a resource version the desired object lacks and no owner
reference where the desired object has one; nothing is written. -/
theorem C9_no_write_on_match_witness :
    Example.current.toObjectMeta ≠ Example.desired.toObjectMeta ∧
      (Reconcile memDeps memClient Example.convergedStore Example.request).err = none ∧
      writes (Reconcile memDeps memClient Example.convergedStore Example.request).calls = [] ∧
      (Reconcile memDeps memClient Example.convergedStore Example.request).store =
        Example.convergedStore :=
  ⟨by decide, C9_no_write_on_match memDeps memClient Example.convergedStore Example.request
    Example.claimEnv Example.desired Example.current rfl rfl (by decide) (by decide) rfl rfl⟩

/-! ## The mapping functions -/

/-- The loop of lines 328-336, started from any list of requests. -/
theorem claim_mapper_loop (name : String) (items : List Environment) (acc : List Request) :
    items.foldl (fun (envRequests : List Request) (env : Environment) =>
        if env.GetDeploymentTargetClaimName = name then
          envRequests ++ [{ toNamespacedName := ObjectKeyFromObject env.toObjectMeta }]
        else envRequests) acc =
      acc ++ (items.filter (fun env => decide (env.GetDeploymentTargetClaimName = name))).map
        (fun env => { toNamespacedName := ⟨env.Namespace, env.Name⟩ }) := by
  induction items generalizing acc with
  | nil => simp
  | cons env rest ih =>
    rw [List.foldl_cons, ih]
    by_cases h : env.GetDeploymentTargetClaimName = name
    · simp [h, List.filter_cons, ObjectKeyFromObject]
    · simp [h, List.filter_cons]

/-- C10: for a claim named `dtc.Name` in namespace `dtc.Namespace` and a
successful listing `envs` of the Environments of that namespace, the requests
returned are those of the listed Environments whose claim name is the claim's
name: one request per such Environment, in listing order, carrying its
namespace and name; so a request is returned exactly when it is the key of a
listed Environment with that claim name. -/
theorem C10_claim_mapper_selects_by_claim_name {σ : Type} (c : Client σ) (s : σ)
    (dtc : DeploymentTargetClaim) (envs : List Environment)
    (hlist : c.ListEnvironments s dtc.Namespace = .ok envs) :
    findObjectsForDeploymentTargetClaim c s (.DeploymentTargetClaim dtc) =
        (envs.filter (fun env => decide (env.GetDeploymentTargetClaimName = dtc.Name))).map
          (fun env => { toNamespacedName := ⟨env.Namespace, env.Name⟩ }) ∧
      ∀ r : Request, r ∈ findObjectsForDeploymentTargetClaim c s (.DeploymentTargetClaim dtc) ↔
        ∃ env ∈ envs, env.GetDeploymentTargetClaimName = dtc.Name ∧
          r = { toNamespacedName := ⟨env.Namespace, env.Name⟩ } := by
  have heq : findObjectsForDeploymentTargetClaim c s (.DeploymentTargetClaim dtc) =
      (envs.filter (fun env => decide (env.GetDeploymentTargetClaimName = dtc.Name))).map
        (fun env => { toNamespacedName := ⟨env.Namespace, env.Name⟩ }) := by
    simp only [findObjectsForDeploymentTargetClaim, hlist]
    rw [claim_mapper_loop]
    rfl
  refine ⟨heq, ?_⟩
  intro r
  rw [heq]
  simp only [List.mem_map, List.mem_filter, decide_eq_true_eq]
  constructor
  · rintro ⟨env, ⟨hmem, hname⟩, rfl⟩
    exact ⟨env, hmem, hname, rfl⟩
  · rintro ⟨env, hmem, hname, rfl⟩
    exact ⟨env, ⟨hmem, hname⟩, rfl⟩

/-- C10 at `Example.mapperStore` for the claim `claim` of namespace `ns`: the
requests are those of `env-a` and `env-c`, in that order. -/
theorem C10_claim_mapper_witness :
    findObjectsForDeploymentTargetClaim memClient Example.mapperStore
        (.DeploymentTargetClaim Example.boundClaim) =
      [{ Namespace := "ns", Name := "env-a" }, { Namespace := "ns", Name := "env-c" }] :=
  (C10_claim_mapper_selects_by_claim_name memClient Example.mapperStore Example.boundClaim
    ((Example.mapperStore.environments).filter (fun o => decide (o.Namespace = "ns")))
    rfl).1.trans (by decide)

/-! ## The claims on the binding condition updater -/

/-- The scan of lines 161-167 stops at the first condition of the type. -/
theorem findConditionIndex_first (conditionType : String) (pre post : List Condition)
    (cond : Condition) (i : Nat)
    (hpre : ∀ c ∈ pre, c.Type_ ≠ conditionType) (hcond : cond.Type_ = conditionType) :
    findConditionIndex conditionType (pre ++ cond :: post) i = some (i + pre.length) := by
  induction pre generalizing i with
  | nil => simp [findConditionIndex, hcond]
  | cons a pre ih =>
    have ha : a.Type_ ≠ conditionType := hpre a (List.mem_cons_self a pre)
    have hrest : ∀ c ∈ pre, c.Type_ ≠ conditionType :=
      fun c hc => hpre c (List.mem_cons_of_mem a hc)
    have harith : i + 1 + pre.length = i + (pre.length + 1) := by omega
    simp only [List.cons_append, findConditionIndex, if_neg ha, List.length_cons]
    exact (ih (i + 1) hrest).trans (congrArg some harith)

/-- The scan of lines 161-167 finds nothing when no condition has the type. -/
theorem findConditionIndex_absent (conditionType : String) (conds : List Condition) (i : Nat)
    (habsent : ∀ c ∈ conds, c.Type_ ≠ conditionType) :
    findConditionIndex conditionType conds i = none := by
  induction conds generalizing i with
  | nil => rfl
  | cons a rest ih =>
    have ha : a.Type_ ≠ conditionType := habsent a (List.mem_cons_self a rest)
    simp only [findConditionIndex, if_neg ha]
    exact ih (i + 1) (fun c hc => habsent c (List.mem_cons_of_mem a hc))

/-- A list of conditions either has none of the type, or splits at the first
one of the type. -/
theorem conditions_split (conditionType : String) (conds : List Condition) :
    (∀ c ∈ conds, c.Type_ ≠ conditionType) ∨
      ∃ pre cond post, conds = pre ++ cond :: post ∧
        (∀ c ∈ pre, c.Type_ ≠ conditionType) ∧ cond.Type_ = conditionType := by
  induction conds with
  | nil => exact Or.inl (fun c hc => absurd hc (List.not_mem_nil c))
  | cons a rest ih =>
    by_cases ha : a.Type_ = conditionType
    · exact Or.inr ⟨[], a, rest, rfl, fun c hc => absurd hc (List.not_mem_nil c), ha⟩
    · rcases ih with h | ⟨pre, cond, post, hsplit, hpre, hcond⟩
      · refine Or.inl (fun c hc => ?_)
        rcases List.mem_cons.mp hc with rfl | hc
        · exact ha
        · exact h c hc
      · refine Or.inr ⟨a :: pre, cond, post, by rw [hsplit]; rfl, fun c hc => ?_, hcond⟩
        rcases List.mem_cons.mp hc with rfl | hc
        · exact ha
        · exact hpre c hc

/-- Modifying the element that follows `pre`. -/
theorem modify_at_split (f : Condition → Condition) (pre post : List Condition)
    (cond : Condition) :
    (pre ++ cond :: post).modify f pre.length = pre ++ f cond :: post := by
  induction pre with
  | nil => rfl
  | cons a pre ih => simp [List.modify_succ_cons, ih]

/-- Lines 181-189 leave the condition with the given reason, message and
status and with the current time, whatever it held. -/
theorem overwriteCondition_eq (now : Nat) (message status reason : String) (cond : Condition) :
    overwriteCondition now message status reason cond =
      { Type_ := cond.Type_, Status := status, Reason := reason, Message := message,
        LastTransitionTime := now } := by
  unfold overwriteCondition
  split <;> rfl

/-- The conditions after the call when one of the type is present: the first
one of the type is overwritten in place. -/
theorem upsert_present (now : Nat) (message : String) (binding : SnapshotEnvironmentBinding)
    (conditionType status reason : String) (pre post : List Condition) (cond : Condition)
    (hsplit : binding.Status.BindingConditions = pre ++ cond :: post)
    (hpre : ∀ c ∈ pre, c.Type_ ≠ conditionType) (hcond : cond.Type_ = conditionType) :
    (upsertBindingCondition now message binding conditionType status reason).Status.BindingConditions
      = pre ++ { Type_ := cond.Type_, Status := status, Reason := reason, Message := message,
                 LastTransitionTime := now } :: post := by
  simp only [upsertBindingCondition, hsplit,
    findConditionIndex_first conditionType pre post cond 0 hpre hcond, Nat.zero_add,
    modify_at_split, overwriteCondition_eq]

/-- The conditions after the call when none of the type is present: the new
condition is appended. -/
theorem upsert_absent (now : Nat) (message : String) (binding : SnapshotEnvironmentBinding)
    (conditionType status reason : String)
    (habsent : ∀ c ∈ binding.Status.BindingConditions, c.Type_ ≠ conditionType) :
    (upsertBindingCondition now message binding conditionType status reason).Status.BindingConditions
      = binding.Status.BindingConditions ++
          [newCondition now message conditionType status reason] := by
  simp only [upsertBindingCondition,
    findConditionIndex_absent conditionType _ 0 habsent]
  rfl

/-- The binding the updater returns is the binding of lines 161-191, whatever
the status update answers. -/
theorem updateStatusCondition_binding {σ : Type} (client : Client σ) (s : σ) (now : Nat)
    (message : String) (binding : SnapshotEnvironmentBinding)
    (conditionType status reason : String) :
    (updateStatusConditionOfEnvironmentBinding client s now message binding conditionType
      status reason).1 =
      upsertBindingCondition now message binding conditionType status reason := by
  simp only [updateStatusConditionOfEnvironmentBinding]
  split <;> rfl

/-- C13: when the first condition of type `conditionType` in the binding (the
one the updater finds; the only one when types are unique) has a message other
than `message` and already has the given status and reason, the call leaves at
its position the same condition with `Message` set to `message` and
`LastTransitionTime` set to `now`, the current time of the call. -/
theorem C13_changed_message_sets_time_and_message {σ : Type} (client : Client σ) (s : σ)
    (now : Nat) (message : String) (binding : SnapshotEnvironmentBinding)
    (conditionType status reason : String) (pre post : List Condition) (cond : Condition)
    (hsplit : binding.Status.BindingConditions = pre ++ cond :: post)
    (hpre : ∀ c ∈ pre, c.Type_ ≠ conditionType) (hcond : cond.Type_ = conditionType)
    (_hmessage : cond.Message ≠ message) (hstatus : cond.Status = status)
    (hreason : cond.Reason = reason) :
    (updateStatusConditionOfEnvironmentBinding client s now message binding conditionType
      status reason).1.Status.BindingConditions =
      pre ++ { cond with Message := message, LastTransitionTime := now } :: post := by
  rw [updateStatusCondition_binding,
    upsert_present now message binding conditionType status reason pre post cond hsplit hpre
      hcond, ← hstatus, ← hreason]

/-- C13 at `Example.mixedBinding`: the `ErrorOccurred` condition, set at time 2
with message `m`, gets the message `m2` and the time 9. -/
theorem C13_changed_message_witness :
    (updateStatusConditionOfEnvironmentBinding memClient Example.bindingStore 9 "m2"
      Example.mixedBinding "ErrorOccurred" "True" "ErrorOccurred").1.Status.BindingConditions =
      [⟨"Ready", "True", "Ok", "fine", 1⟩,
       ⟨"ErrorOccurred", "True", "ErrorOccurred", "m2", 9⟩,
       ⟨"Synced", "False", "Pending", "wait", 3⟩] :=
  C13_changed_message_sets_time_and_message memClient Example.bindingStore 9 "m2"
    Example.mixedBinding "ErrorOccurred" "True" "ErrorOccurred"
    [⟨"Ready", "True", "Ok", "fine", 1⟩] [⟨"Synced", "False", "Pending", "wait", 3⟩]
    ⟨"ErrorOccurred", "True", "ErrorOccurred", "m", 2⟩
    rfl (by decide) rfl (by decide) rfl rfl

/-- C19: the call touches only the first condition of the type.  When the
conditions split as `pre`, then the first condition `cond` of type
`conditionType`, then `post`, the conditions after the call are `pre`, then
`cond` overwritten, then `post`: every other condition is the same at the same
position.  When no condition has the type, the conditions after the call are
the old ones followed by the new condition. -/
theorem C19_only_first_condition_of_type_touched {σ : Type} (client : Client σ) (s : σ)
    (now : Nat) (message : String) (binding : SnapshotEnvironmentBinding)
    (conditionType status reason : String) :
    (∀ (pre post : List Condition) (cond : Condition),
        binding.Status.BindingConditions = pre ++ cond :: post →
        (∀ c ∈ pre, c.Type_ ≠ conditionType) → cond.Type_ = conditionType →
        (updateStatusConditionOfEnvironmentBinding client s now message binding conditionType
          status reason).1.Status.BindingConditions =
          pre ++ { Type_ := cond.Type_, Status := status, Reason := reason,
                   Message := message, LastTransitionTime := now } :: post) ∧
      ((∀ c ∈ binding.Status.BindingConditions, c.Type_ ≠ conditionType) →
        (updateStatusConditionOfEnvironmentBinding client s now message binding conditionType
          status reason).1.Status.BindingConditions =
          binding.Status.BindingConditions ++
            [newCondition now message conditionType status reason]) := by
  constructor
  · intro pre post cond hsplit hpre hcond
    rw [updateStatusCondition_binding]
    exact upsert_present now message binding conditionType status reason pre post cond hsplit
      hpre hcond
  · intro habsent
    rw [updateStatusCondition_binding]
    exact upsert_absent now message binding conditionType status reason habsent

/-- C19 at `Example.mixedBinding`: an update of `ErrorOccurred` leaves `Ready`
and `Synced` as they were, in first and third place; an update of the absent
type `Degraded` appends it after the three conditions. -/
theorem C19_only_first_condition_witness :
    (updateStatusConditionOfEnvironmentBinding memClient Example.bindingStore 9 "m2"
      Example.mixedBinding "ErrorOccurred" "False" "Recovered").1.Status.BindingConditions =
      [⟨"Ready", "True", "Ok", "fine", 1⟩,
       ⟨"ErrorOccurred", "False", "Recovered", "m2", 9⟩,
       ⟨"Synced", "False", "Pending", "wait", 3⟩] ∧
    (updateStatusConditionOfEnvironmentBinding memClient Example.bindingStore 9 "down"
      Example.mixedBinding "Degraded" "True" "Outage").1.Status.BindingConditions =
      [⟨"Ready", "True", "Ok", "fine", 1⟩,
       ⟨"ErrorOccurred", "True", "ErrorOccurred", "m", 2⟩,
       ⟨"Synced", "False", "Pending", "wait", 3⟩,
       ⟨"Degraded", "True", "Outage", "down", 9⟩] :=
  ⟨(C19_only_first_condition_of_type_touched memClient Example.bindingStore 9 "m2"
      Example.mixedBinding "ErrorOccurred" "False" "Recovered").1
      [⟨"Ready", "True", "Ok", "fine", 1⟩] [⟨"Synced", "False", "Pending", "wait", 3⟩]
      ⟨"ErrorOccurred", "True", "ErrorOccurred", "m", 2⟩ rfl (by decide) rfl,
   (C19_only_first_condition_of_type_touched memClient Example.bindingStore 9 "down"
      Example.mixedBinding "Degraded" "True" "Outage").2 (by decide)⟩

/-- No condition of a list has the type: the filter on the type is empty. -/
theorem filter_type_absent (conditionType : String) (conds : List Condition)
    (habsent : ∀ c ∈ conds, c.Type_ ≠ conditionType) :
    conds.filter (fun c => decide (c.Type_ = conditionType)) = [] := by
  rw [List.filter_eq_nil_iff]
  intro c hc
  simpa using habsent c hc

/-- C14: for a binding whose conditions have pairwise distinct types, after the
call the types are still pairwise distinct, exactly one condition has the type
`conditionType` and it carries the given status, reason and message; the list
is one longer when no condition had the type and as long as before when one
had. -/
theorem C14_condition_types_stay_unique {σ : Type} (client : Client σ) (s : σ)
    (now : Nat) (message : String) (binding : SnapshotEnvironmentBinding)
    (conditionType status reason : String)
    (hunique : (binding.Status.BindingConditions.map (fun c => c.Type_)).Nodup) :
    ((updateStatusConditionOfEnvironmentBinding client s now message binding conditionType
        status reason).1.Status.BindingConditions.map (fun c => c.Type_)).Nodup ∧
      (∃ c, (updateStatusConditionOfEnvironmentBinding client s now message binding
          conditionType status reason).1.Status.BindingConditions.filter
            (fun c => decide (c.Type_ = conditionType)) = [c] ∧
        c.Status = status ∧ c.Reason = reason ∧ c.Message = message) ∧
      ((∀ c ∈ binding.Status.BindingConditions, c.Type_ ≠ conditionType) →
        (updateStatusConditionOfEnvironmentBinding client s now message binding conditionType
          status reason).1.Status.BindingConditions.length =
          binding.Status.BindingConditions.length + 1) ∧
      ((∃ c ∈ binding.Status.BindingConditions, c.Type_ = conditionType) →
        (updateStatusConditionOfEnvironmentBinding client s now message binding conditionType
          status reason).1.Status.BindingConditions.length =
          binding.Status.BindingConditions.length) := by
  rw [updateStatusCondition_binding]
  rcases conditions_split conditionType binding.Status.BindingConditions with
    habsent | ⟨pre, cond, post, hsplit, hpre, hcond⟩
  · rw [upsert_absent now message binding conditionType status reason habsent]
    refine ⟨?_, ⟨newCondition now message conditionType status reason, ?_, rfl, rfl, rfl⟩,
      fun _ => by simp, fun ⟨c, hc, ht⟩ => absurd ht (habsent c hc)⟩
    · rw [List.map_append, List.nodup_append]
      refine ⟨hunique, List.nodup_singleton _, ?_⟩
      intro t ht hnew
      rcases List.mem_map.mp ht with ⟨c, hc, rfl⟩
      rw [List.map_singleton, List.mem_singleton] at hnew
      exact habsent c hc hnew
    · rw [List.filter_append, filter_type_absent conditionType _ habsent]
      simp [newCondition]
  · rw [upsert_present now message binding conditionType status reason pre post cond hsplit
      hpre hcond]
    rw [hsplit] at hunique
    have hpost : ∀ c ∈ post, c.Type_ ≠ conditionType := by
      intro c hc ht
      rw [List.map_append, List.map_cons, List.nodup_append] at hunique
      have hcons := (List.nodup_cons.mp hunique.2.1).1
      apply hcons
      rw [hcond, ← ht]
      exact List.mem_map.mpr ⟨c, hc, rfl⟩
    refine ⟨?_, ⟨⟨cond.Type_, status, reason, message, now⟩, ?_, rfl, rfl, rfl⟩,
      fun habsent => ?_, fun _ => ?_⟩
    · simpa using hunique
    · rw [List.filter_append, filter_type_absent conditionType _ hpre, List.filter_cons,
        filter_type_absent conditionType _ hpost]
      simp [hcond]
    · exact absurd hcond (habsent cond (by rw [hsplit]; simp))
    · rw [hsplit]
      simp

/-- C14 at `Example.mixedBinding`, whose three types are distinct, for the
present type `ErrorOccurred`. -/
theorem C14_condition_types_witness :
    ((updateStatusConditionOfEnvironmentBinding memClient Example.bindingStore 9 "m2"
        Example.mixedBinding "ErrorOccurred" "False" "Recovered").1.Status.BindingConditions.map
          (fun c => c.Type_)).Nodup ∧
      (∃ c, (updateStatusConditionOfEnvironmentBinding memClient Example.bindingStore 9 "m2"
          Example.mixedBinding "ErrorOccurred" "False" "Recovered").1.Status.BindingConditions.filter
            (fun c => decide (c.Type_ = "ErrorOccurred")) = [c] ∧
        c.Status = "False" ∧ c.Reason = "Recovered" ∧ c.Message = "m2") ∧
      (updateStatusConditionOfEnvironmentBinding memClient Example.bindingStore 9 "m2"
        Example.mixedBinding "ErrorOccurred" "False" "Recovered").1.Status.BindingConditions.length
        = 3 :=
  have h := C14_condition_types_stay_unique memClient Example.bindingStore 9 "m2"
    Example.mixedBinding "ErrorOccurred" "False" "Recovered" (by decide)
  ⟨h.1, h.2.1, h.2.2.2 ⟨⟨"ErrorOccurred", "True", "ErrorOccurred", "m", 2⟩, by decide, rfl⟩⟩

/-! ## The claims on the mapping functions -/

/-- The requests of the claim mapper on a successful listing: a request is
returned exactly when it is the key of a listed Environment whose claim name is
the claim's name. -/
theorem mem_findObjectsForDeploymentTargetClaim {σ : Type} (c : Client σ) (s : σ)
    (dtc : DeploymentTargetClaim) (envs : List Environment)
    (hlist : c.ListEnvironments s dtc.Namespace = .ok envs) (r : Request) :
    r ∈ findObjectsForDeploymentTargetClaim c s (.DeploymentTargetClaim dtc) ↔
      ∃ env ∈ envs, env.GetDeploymentTargetClaimName = dtc.Name ∧
        r = { toNamespacedName := ⟨env.Namespace, env.Name⟩ } := by
  simp only [findObjectsForDeploymentTargetClaim, hlist, claim_mapper_loop, List.nil_append,
    List.mem_map, List.mem_filter, decide_eq_true_eq]
  constructor
  · rintro ⟨env, ⟨hmem, hname⟩, rfl⟩
    exact ⟨env, hmem, hname, rfl⟩
  · rintro ⟨env, hmem, hname, rfl⟩
    exact ⟨env, ⟨hmem, hname⟩, rfl⟩

/-- The loop of lines 361-368, started from any list of claims: it keeps the
listed claims that name the target or that the target names. -/
theorem affected_claims_loop (dt : DeploymentTarget) (items acc : List DeploymentTargetClaim) :
    items.foldl (fun (dtcs : List DeploymentTargetClaim) (dtc : DeploymentTargetClaim) =>
        if dtc.Spec.TargetName = dt.Name ∨ dt.Spec.ClaimRef = dtc.Name then dtcs ++ [dtc]
        else dtcs) acc =
      acc ++ items.filter (fun dtc =>
        decide (dtc.Spec.TargetName = dt.Name ∨ dt.Spec.ClaimRef = dtc.Name)) := by
  induction items generalizing acc with
  | nil => simp
  | cons dtc rest ih =>
    rw [List.foldl_cons, ih]
    by_cases h : dtc.Spec.TargetName = dt.Name ∨ dt.Spec.ClaimRef = dtc.Name
    · simp [h, List.filter_cons]
    · simp [h, List.filter_cons]

/-- The inner loop of lines 381-387 for one Environment: one request for the
Environment per claim with the Environment's claim name. -/
theorem target_mapper_inner_loop (env : Environment) (dtcs : List DeploymentTargetClaim)
    (acc : List Request) :
    dtcs.foldl (fun (envRequests : List Request) (dtc : DeploymentTargetClaim) =>
        if env.GetDeploymentTargetClaimName = dtc.Name then
          envRequests ++ [{ toNamespacedName := ObjectKeyFromObject env.toObjectMeta }]
        else envRequests) acc =
      acc ++ (dtcs.filter (fun dtc => decide (env.GetDeploymentTargetClaimName = dtc.Name))).map
        (fun _ => { toNamespacedName := ⟨env.Namespace, env.Name⟩ }) := by
  induction dtcs generalizing acc with
  | nil => simp
  | cons dtc rest ih =>
    rw [List.foldl_cons, ih]
    by_cases h : env.GetDeploymentTargetClaimName = dtc.Name
    · simp [h, List.filter_cons, ObjectKeyFromObject]
    · simp [h, List.filter_cons]

/-- The loop of lines 379-388: for each listed Environment in order, one
request per claim with the Environment's claim name. -/
theorem target_mapper_loop (dtcs : List DeploymentTargetClaim) (items : List Environment)
    (acc : List Request) :
    items.foldl (fun (envRequests : List Request) (env : Environment) =>
        dtcs.foldl (fun (envRequests : List Request) (dtc : DeploymentTargetClaim) =>
          if env.GetDeploymentTargetClaimName = dtc.Name then
            envRequests ++ [{ toNamespacedName := ObjectKeyFromObject env.toObjectMeta }]
          else envRequests) envRequests) acc =
      acc ++ items.flatMap (fun env =>
        (dtcs.filter (fun dtc => decide (env.GetDeploymentTargetClaimName = dtc.Name))).map
          (fun _ => { toNamespacedName := ⟨env.Namespace, env.Name⟩ })) := by
  induction items generalizing acc with
  | nil => simp
  | cons env rest ih =>
    rw [List.foldl_cons, target_mapper_inner_loop, ih]
    simp [List.flatMap_cons]

/-- The requests of the target mapper on successful listings, as a list. -/
theorem findObjectsForDeploymentTarget_eq {σ : Type} (c : Client σ) (s : σ)
    (dt : DeploymentTarget) (dtcs : List DeploymentTargetClaim) (envs : List Environment)
    (hclaims : c.ListDeploymentTargetClaims s dt.Namespace = .ok dtcs)
    (henvs : c.ListEnvironments s dt.Namespace = .ok envs) :
    findObjectsForDeploymentTarget c s (.DeploymentTarget dt) =
      envs.flatMap (fun env =>
        ((dtcs.filter (fun dtc =>
            decide (dtc.Spec.TargetName = dt.Name ∨ dt.Spec.ClaimRef = dtc.Name))).filter
          (fun dtc => decide (env.GetDeploymentTargetClaimName = dtc.Name))).map
          (fun _ => { toNamespacedName := ⟨env.Namespace, env.Name⟩ })) := by
  simp only [findObjectsForDeploymentTarget, hclaims, henvs, affected_claims_loop,
    target_mapper_loop, List.nil_append]

/-- C11: for a target `dt` and successful listings `dtcs` and `envs` of the
claims and of the Environments of its namespace, a request is returned exactly
when it is the key of a listed Environment whose claim name is the name of a
listed claim that names `dt` in its `TargetName` or that `dt` names in its
`ClaimRef`; and, the listed claims lying in the target's namespace, exactly
when the claim mapper returns it for one of those claims. -/
theorem C11_target_mapper_selects_by_affected_claims {σ : Type} (c : Client σ) (s : σ)
    (dt : DeploymentTarget) (dtcs : List DeploymentTargetClaim) (envs : List Environment)
    (hclaims : c.ListDeploymentTargetClaims s dt.Namespace = .ok dtcs)
    (henvs : c.ListEnvironments s dt.Namespace = .ok envs) :
    (∀ r : Request, r ∈ findObjectsForDeploymentTarget c s (.DeploymentTarget dt) ↔
        ∃ env ∈ envs, ∃ dtc ∈ dtcs,
          (dtc.Spec.TargetName = dt.Name ∨ dt.Spec.ClaimRef = dtc.Name) ∧
          env.GetDeploymentTargetClaimName = dtc.Name ∧
          r = { toNamespacedName := ⟨env.Namespace, env.Name⟩ }) ∧
      ((∀ dtc ∈ dtcs, dtc.Namespace = dt.Namespace) →
        ∀ r : Request, r ∈ findObjectsForDeploymentTarget c s (.DeploymentTarget dt) ↔
          ∃ dtc ∈ dtcs, (dtc.Spec.TargetName = dt.Name ∨ dt.Spec.ClaimRef = dtc.Name) ∧
            r ∈ findObjectsForDeploymentTargetClaim c s (.DeploymentTargetClaim dtc)) := by
  have hmem : ∀ r : Request, r ∈ findObjectsForDeploymentTarget c s (.DeploymentTarget dt) ↔
      ∃ env ∈ envs, ∃ dtc ∈ dtcs,
        (dtc.Spec.TargetName = dt.Name ∨ dt.Spec.ClaimRef = dtc.Name) ∧
        env.GetDeploymentTargetClaimName = dtc.Name ∧
        r = { toNamespacedName := ⟨env.Namespace, env.Name⟩ } := by
    intro r
    rw [findObjectsForDeploymentTarget_eq c s dt dtcs envs hclaims henvs]
    simp only [List.mem_flatMap, List.mem_map, List.mem_filter, decide_eq_true_eq]
    constructor
    · rintro ⟨env, henv, dtc, ⟨⟨hdtc, haff⟩, hname⟩, rfl⟩
      exact ⟨env, henv, dtc, hdtc, haff, hname, rfl⟩
    · rintro ⟨env, henv, dtc, hdtc, haff, hname, rfl⟩
      exact ⟨env, henv, dtc, ⟨⟨hdtc, haff⟩, hname⟩, rfl⟩
  refine ⟨hmem, ?_⟩
  intro hns r
  rw [hmem r]
  constructor
  · rintro ⟨env, henv, dtc, hdtc, haff, hname, rfl⟩
    refine ⟨dtc, hdtc, haff, ?_⟩
    have hlist : c.ListEnvironments s dtc.Namespace = .ok envs := by
      rw [hns dtc hdtc]
      exact henvs
    exact (mem_findObjectsForDeploymentTargetClaim c s dtc envs hlist _).mpr
      ⟨env, henv, hname, rfl⟩
  · rintro ⟨dtc, hdtc, haff, hr⟩
    have hlist : c.ListEnvironments s dtc.Namespace = .ok envs := by
      rw [hns dtc hdtc]
      exact henvs
    rcases (mem_findObjectsForDeploymentTargetClaim c s dtc envs hlist r).mp hr with
      ⟨env, henv, hname, rfl⟩
    exact ⟨env, henv, dtc, hdtc, haff, hname, rfl⟩

/-- C11 at `Example.targetMapperStore` for the target `dt`: the request for
`env-c`, whose claim `other` names `dt`, is returned, both by the target
mapper and by the claim mapper for `other`; the requests returned are those of
`env-a` and `env-c`. -/
theorem C11_target_mapper_witness :
    findObjectsForDeploymentTarget memClient Example.targetMapperStore
        (.DeploymentTarget Example.target) =
        [{ Namespace := "ns", Name := "env-a" }, { Namespace := "ns", Name := "env-c" }] ∧
      ({ Namespace := "ns", Name := "env-c" } : Request) ∈
        findObjectsForDeploymentTarget memClient Example.targetMapperStore
          (.DeploymentTarget Example.target) ∧
      ∃ dtc ∈ Example.targetMapperStore.claims,
        (dtc.Spec.TargetName = Example.target.Name ∨ Example.target.Spec.ClaimRef = dtc.Name) ∧
        ({ Namespace := "ns", Name := "env-c" } : Request) ∈
          findObjectsForDeploymentTargetClaim memClient Example.targetMapperStore
            (.DeploymentTargetClaim dtc) :=
  have h := C11_target_mapper_selects_by_affected_claims memClient Example.targetMapperStore
    Example.target Example.targetMapperStore.claims
    (Example.targetMapperStore.environments.filter (fun o => decide (o.Namespace = "ns")))
    rfl rfl
  have hmem : ({ Namespace := "ns", Name := "env-c" } : Request) ∈
      findObjectsForDeploymentTarget memClient Example.targetMapperStore
        (.DeploymentTarget Example.target) :=
    (h.1 _).mpr
      ⟨{ Name := "env-c", Namespace := "ns", Spec := { DeploymentTargetClaimName := "other" } },
        by decide, Example.otherClaim, by decide, Or.inl rfl, rfl, rfl⟩
  ⟨by decide, hmem, (h.2 (by decide) _).mp hmem⟩

/-- C15: both mappers fail soft.  The claim mapper returns no request when the
listing of the Environments returns an error and when its argument is not a
DeploymentTargetClaim; the target mapper returns no request when the listing of
the claims returns an error, when the listing of the Environments returns an
error and when its argument is not a DeploymentTarget.  The result of a mapper
is a list of requests: it has no error to return. -/
theorem C15_mappers_fail_soft {σ : Type} (c : Client σ) (s : σ) :
    (∀ (dtc : DeploymentTargetClaim) (err : GoError),
        c.ListEnvironments s dtc.Namespace = .error err →
        findObjectsForDeploymentTargetClaim c s (.DeploymentTargetClaim dtc) = []) ∧
      (∀ obj : Object, (∀ dtc, obj ≠ .DeploymentTargetClaim dtc) →
        findObjectsForDeploymentTargetClaim c s obj = []) ∧
      (∀ (dt : DeploymentTarget) (err : GoError),
        c.ListDeploymentTargetClaims s dt.Namespace = .error err →
        findObjectsForDeploymentTarget c s (.DeploymentTarget dt) = []) ∧
      (∀ (dt : DeploymentTarget) (err : GoError),
        c.ListEnvironments s dt.Namespace = .error err →
        findObjectsForDeploymentTarget c s (.DeploymentTarget dt) = []) ∧
      (∀ obj : Object, (∀ dt, obj ≠ .DeploymentTarget dt) →
        findObjectsForDeploymentTarget c s obj = []) := by
  refine ⟨?_, ?_, ?_, ?_, ?_⟩
  · intro dtc err hlist
    simp only [findObjectsForDeploymentTargetClaim, hlist]
  · intro obj hkind
    cases obj with
    | DeploymentTargetClaim dtc => exact absurd rfl (hkind dtc)
    | Environment o => rfl
    | DeploymentTarget o => rfl
    | Secret o => rfl
  · intro dt err hlist
    simp only [findObjectsForDeploymentTarget, hlist]
  · intro dt err hlist
    simp only [findObjectsForDeploymentTarget, hlist]
    split <;> rfl
  · intro obj hkind
    cases obj with
    | DeploymentTarget dt => exact absurd rfl (hkind dt)
    | Environment o => rfl
    | DeploymentTargetClaim o => rfl
    | Secret o => rfl

/-- C15 at `Example.targetMapperStore`, where both mappers return requests
when the listings succeed: with a failing listing of the Environments both
return none, with a failing listing of the claims the target mapper returns
none, and a Secret yields no request from either. -/
theorem C15_mappers_fail_soft_witness :
    findObjectsForDeploymentTargetClaim (Example.unreliableClient false true)
        Example.targetMapperStore (.DeploymentTargetClaim Example.otherClaim) = [] ∧
      findObjectsForDeploymentTargetClaim memClient Example.targetMapperStore
        (.Secret Example.targetSecret) = [] ∧
      findObjectsForDeploymentTarget (Example.unreliableClient true false)
        Example.targetMapperStore (.DeploymentTarget Example.target) = [] ∧
      findObjectsForDeploymentTarget (Example.unreliableClient false true)
        Example.targetMapperStore (.DeploymentTarget Example.target) = [] ∧
      findObjectsForDeploymentTarget memClient Example.targetMapperStore
        (.Secret Example.targetSecret) = [] :=
  ⟨(C15_mappers_fail_soft (Example.unreliableClient false true) Example.targetMapperStore).1
      Example.otherClaim ⟨false, "the server is unavailable"⟩ rfl,
    (C15_mappers_fail_soft memClient Example.targetMapperStore).2.1
      (.Secret Example.targetSecret) (fun _ h => Object.noConfusion h),
    (C15_mappers_fail_soft (Example.unreliableClient true false)
      Example.targetMapperStore).2.2.1 Example.target ⟨false, "the server is unavailable"⟩ rfl,
    (C15_mappers_fail_soft (Example.unreliableClient false true)
      Example.targetMapperStore).2.2.2.1 Example.target ⟨false, "the server is unavailable"⟩
      rfl,
    (C15_mappers_fail_soft memClient Example.targetMapperStore).2.2.2.2
      (.Secret Example.targetSecret) (fun _ h => Object.noConfusion h)⟩

/-! ## Further paths of the resolver and of `Reconcile` -/

/-- Lines 100-103: an error of the resolver is returned, wrapped, with no
further call. -/
theorem Reconcile_resolver_error {σ : Type} (d : Deps σ) (c : Client σ) (s : σ)
    (req : Request) (env : Environment) (calls : List Call) (err : GoError)
    (hns : d.isRequestNamespaceBeingDeleted s req.Namespace = (false, none))
    (henv : c.GetEnvironment s ⟨req.Namespace, req.Name⟩ = .ok env)
    (hvalid : ¬ (env.GetDeploymentTargetClaimName ≠ "" ∧
      env.Spec.UnstableConfigurationFields ≠ none))
    (hres : generateDesiredResource d c s env = (.error err, calls)) :
    Reconcile d c s req = ⟨some (resolverError err), s, preamble req ++ calls⟩ := by
  simp only [Reconcile, hns, henv, hres, preamble, resolverError]
  simp [hvalid]

/-- Lines 123-127: a failed fetch of the ManagedEnvironment, other than a
not-found, is returned, wrapped, with no further call. -/
theorem Reconcile_fetch_error {σ : Type} (d : Deps σ) (c : Client σ) (s : σ) (req : Request)
    (env : Environment) (calls : List Call) (desired : GitOpsDeploymentManagedEnvironment)
    (err : GoError)
    (hns : d.isRequestNamespaceBeingDeleted s req.Namespace = (false, none))
    (henv : c.GetEnvironment s ⟨req.Namespace, req.Name⟩ = .ok env)
    (hvalid : ¬ (env.GetDeploymentTargetClaimName ≠ "" ∧
      env.Spec.UnstableConfigurationFields ≠ none))
    (hres : generateDesiredResource d c s env = (.ok (some desired), calls))
    (hget : c.GetManagedEnvironment s (managedEnvironmentKey env) = .error err)
    (hother : err.IsNotFound = false) :
    Reconcile d c s req =
      ⟨some (fetchError ("managed-environment-" ++ env.Name) err), s,
        preamble req ++ calls ++ [.GetManagedEnvironment (managedEnvironmentKey env)]⟩ := by
  have hkey : ObjectKeyFromObject
      (generateEmptyManagedEnvironment env.Name env.Namespace).toObjectMeta =
      managedEnvironmentKey env := rfl
  simp only [Reconcile, hns, henv, hres, preamble, hkey, hget, hother]
  simp [hvalid, fetchError, generateEmptyManagedEnvironment]

/-- Lines 261-264: when the secret is not found, lines 254-280 return the
error of line 263. -/
theorem build_missing_secret {σ : Type} (d : Deps σ) (c : Client σ) (s : σ)
    (env : Environment) (details : GitOpsDeploymentManagedEnvironmentSpec) (calls : List Call)
    (err : GoError)
    (hsecret : c.GetSecret s ⟨env.Namespace, details.ClusterCredentialsSecret⟩ = .error err)
    (hnotFound : err.IsNotFound = true) :
    generateDesiredResource.build d c s env details calls =
      (.error (missingSecretError details.ClusterCredentialsSecret err),
        calls ++ [.GetSecret ⟨env.Namespace, details.ClusterCredentialsSecret⟩]) := by
  simp only [generateDesiredResource.build, hsecret, hnotFound]
  rfl

/-- The resolver on an Environment with direct credentials only. -/
theorem generateDesiredResource_direct {σ : Type} (d : Deps σ) (c : Client σ) (s : σ)
    (env : Environment) (fields : UnstableEnvironmentConfiguration)
    (hclaim : env.GetDeploymentTargetClaimName = "")
    (hfields : env.Spec.UnstableConfigurationFields = some fields) :
    generateDesiredResource d c s env =
      generateDesiredResource.build d c s env
        { APIURL := fields.APIURL,
          ClusterCredentialsSecret := fields.ClusterCredentialsSecret,
          AllowInsecureSkipTLSVerify := fields.AllowInsecureSkipTLSVerify } [] := by
  have hno : ¬ (env.GetDeploymentTargetClaimName ≠ "") := fun h => h hclaim
  simp only [generateDesiredResource, if_neg hno, hfields]

/-- The resolver on an Environment that names a Bound claim whose target is
found. -/
theorem generateDesiredResource_through_claim {σ : Type} (d : Deps σ) (c : Client σ) (s : σ)
    (env : Environment) (dtc : DeploymentTargetClaim) (dt : DeploymentTarget)
    (hclaim : env.GetDeploymentTargetClaimName ≠ "")
    (hdtc : c.GetDeploymentTargetClaim s ⟨env.Namespace, env.GetDeploymentTargetClaimName⟩ =
      .ok dtc)
    (hbound : dtc.Status.Phase = DeploymentTargetClaimPhase_Bound)
    (hdt : d.getDTBoundByDTC s dtc = .ok (some dt)) :
    generateDesiredResource d c s env =
      generateDesiredResource.build d c s env
        { APIURL := dt.Spec.KubernetesClusterCredentials.APIURL,
          ClusterCredentialsSecret :=
            dt.Spec.KubernetesClusterCredentials.ClusterCredentialsSecret }
        [.GetDeploymentTargetClaim ⟨env.Namespace, env.GetDeploymentTargetClaimName⟩,
         .getDTBoundByDTC dtc] := by
  simp only [generateDesiredResource, if_pos hclaim, hdtc, hdt]
  rw [if_neg (fun h => h hbound)]
  rfl

/-! ## Further claims on the resolver and on `Reconcile` -/

/-- C12: let the resolver take the credentials of an Environment either from
its direct configuration (the claim name is empty and the fields are set) or
through its claim (the claim is fetched, is Bound and the bound-target lookup
returns a target), and let the secret these credentials name be not found in
the Environment's namespace.  Then `generateDesiredResource` returns an error
and no desired object, and a run of `Reconcile` that fetches this Environment
returns an error, issues no write and leaves the store as it was. -/
theorem C12_missing_secret_is_error {σ : Type} (d : Deps σ) (c : Client σ) (s : σ)
    (env : Environment) (name : String) (err : GoError)
    (hcredentials :
      (env.GetDeploymentTargetClaimName = "" ∧
        ∃ fields, env.Spec.UnstableConfigurationFields = some fields ∧
          fields.ClusterCredentialsSecret = name) ∨
      (env.GetDeploymentTargetClaimName ≠ "" ∧
        ∃ dtc dt,
          c.GetDeploymentTargetClaim s ⟨env.Namespace, env.GetDeploymentTargetClaimName⟩ =
            .ok dtc ∧
          dtc.Status.Phase = DeploymentTargetClaimPhase_Bound ∧
          d.getDTBoundByDTC s dtc = .ok (some dt) ∧
          dt.Spec.KubernetesClusterCredentials.ClusterCredentialsSecret = name))
    (hsecret : c.GetSecret s ⟨env.Namespace, name⟩ = .error err)
    (hnotFound : err.IsNotFound = true) :
    (generateDesiredResource d c s env).1 = .error (missingSecretError name err) ∧
      ∀ req : Request,
        d.isRequestNamespaceBeingDeleted s req.Namespace = (false, none) →
        c.GetEnvironment s ⟨req.Namespace, req.Name⟩ = .ok env →
        (Reconcile d c s req).err ≠ none ∧
          writes (Reconcile d c s req).calls = [] ∧
          (Reconcile d c s req).store = s := by
  have hres : (generateDesiredResource d c s env).1 = .error (missingSecretError name err) := by
    rcases hcredentials with ⟨hclaim, fields, hfields, rfl⟩ | ⟨hclaim, dtc, dt, hdtc, hbound,
      hdt, rfl⟩
    · rw [generateDesiredResource_direct d c s env fields hclaim hfields,
        build_missing_secret d c s env _ _ err hsecret hnotFound]
    · rw [generateDesiredResource_through_claim d c s env dtc dt hclaim hdtc hbound hdt,
        build_missing_secret d c s env _ _ err hsecret hnotFound]
  refine ⟨hres, ?_⟩
  intro req hns henv
  by_cases hboth : env.GetDeploymentTargetClaimName ≠ "" ∧
      env.Spec.UnstableConfigurationFields ≠ none
  · rw [Reconcile_both_forms d c s req env hns henv hboth.1 hboth.2]
    exact ⟨by simp, writes_preamble req, rfl⟩
  · have hpair : generateDesiredResource d c s env =
        (.error (missingSecretError name err), (generateDesiredResource d c s env).2) :=
      Prod.ext hres rfl
    rw [Reconcile_resolver_error d c s req env _ _ hns henv hboth hpair]
    refine ⟨by simp, ?_, rfl⟩
    rw [writes_append, writes_preamble, writes_generateDesiredResource]
    rfl

/-- C12 at `Example.claimEnv` in `Example.missingSecretStore`, where the claim
is Bound and its target names the secret `dt-secret`, which is not stored. -/
theorem C12_missing_secret_witness :
    (generateDesiredResource memDeps memClient (Example.missingSecretStore Example.claimEnv)
        Example.claimEnv).1 =
        .error (missingSecretError "dt-secret" (MemStore.notFound ⟨"ns", "dt-secret"⟩)) ∧
      (Reconcile memDeps memClient (Example.missingSecretStore Example.claimEnv)
        Example.request).err ≠ none ∧
      writes (Reconcile memDeps memClient (Example.missingSecretStore Example.claimEnv)
        Example.request).calls = [] ∧
      (Reconcile memDeps memClient (Example.missingSecretStore Example.claimEnv)
        Example.request).store = Example.missingSecretStore Example.claimEnv :=
  have h := C12_missing_secret_is_error memDeps memClient
    (Example.missingSecretStore Example.claimEnv) Example.claimEnv "dt-secret"
    (MemStore.notFound ⟨"ns", "dt-secret"⟩)
    (Or.inr ⟨by decide, Example.boundClaim, Example.target, rfl, rfl, rfl, rfl⟩) rfl rfl
  ⟨h.1, h.2 Example.request rfl rfl⟩

/-- C16: for an Environment with an empty claim name and direct credentials
whose secret exists in its namespace, `generateDesiredResource` returns a
desired object whose Spec is the APIURL, the ClusterCredentialsSecret and the
AllowInsecureSkipTLSVerify flag of the Environment's direct credentials; it
reads the secret and nothing else, so no stored ManagedEnvironment has a part
in it. -/
theorem C16_direct_credentials_copied {σ : Type} (d : Deps σ) (c : Client σ) (s : σ)
    (env : Environment) (fields : UnstableEnvironmentConfiguration) (secret : Secret)
    (hclaim : env.GetDeploymentTargetClaimName = "")
    (hfields : env.Spec.UnstableConfigurationFields = some fields)
    (hsecret : c.GetSecret s ⟨env.Namespace, fields.ClusterCredentialsSecret⟩ = .ok secret) :
    generateDesiredResource d c s env =
      (.ok (some
        { Name := "managed-environment-" ++ env.Name,
          Namespace := env.Namespace,
          UID := "", ResourceVersion := "", Labels := [],
          OwnerReferences := [
            { APIVersion := d.GroupVersion.Group ++ "/" ++ d.GroupVersion.Version,
              Kind := "Environment", Name := env.Name, UID := env.UID }],
          Spec :=
            { APIURL := fields.APIURL,
              ClusterCredentialsSecret := fields.ClusterCredentialsSecret,
              AllowInsecureSkipTLSVerify := fields.AllowInsecureSkipTLSVerify } }),
        [.GetSecret ⟨env.Namespace, fields.ClusterCredentialsSecret⟩]) := by
  rw [generateDesiredResource_direct d c s env fields hclaim hfields,
    build_of_secret d c s env _ _ secret hsecret]
  rfl

/-- C16 at `Example.directEnv` in `Example.directStore`, where a
ManagedEnvironment with another Spec is stored: the desired Spec is the
Environment's, with the insecure flag set. -/
theorem C16_direct_credentials_witness :
    Example.directStore.managedEnvironments = [Example.stale] ∧
      generateDesiredResource memDeps memClient Example.directStore Example.directEnv =
      (.ok (some
        { Name := "managed-environment-env", Namespace := "ns",
          UID := "", ResourceVersion := "", Labels := [],
          OwnerReferences := [
            { APIVersion := "managed-gitops.redhat.com/v1alpha1",
              Kind := "Environment", Name := "env", UID := "uid-1" }],
          Spec :=
            { APIURL := "https://direct", ClusterCredentialsSecret := "direct-secret",
              AllowInsecureSkipTLSVerify := true } }),
        [.GetSecret ⟨"ns", "direct-secret"⟩]) :=
  ⟨rfl, C16_direct_credentials_copied memDeps memClient Example.directStore Example.directEnv
    { APIURL := "https://direct", ClusterCredentialsSecret := "direct-secret",
      AllowInsecureSkipTLSVerify := true }
    { Name := "direct-secret", Namespace := "ns" } rfl rfl rfl⟩

/-- The calls of a run of `Reconcile`: reads only, or reads, then the fetch of
the ManagedEnvironment, then at most one write. -/
theorem Reconcile_calls_shape {σ : Type} (d : Deps σ) (c : Client σ) (s : σ) (req : Request) :
    ∃ reads, writes reads = [] ∧
      ((Reconcile d c s req).calls = reads ∨
        ∃ key tail,
          (Reconcile d c s req).calls = reads ++ Call.GetManagedEnvironment key :: tail ∧
          (tail = [] ∨ (∃ obj, tail = [.Create obj]) ∨ (∃ obj, tail = [.Update obj]))) := by
  rcases hcheck : d.isRequestNamespaceBeingDeleted s req.Namespace with ⟨deleting, nsErr⟩
  by_cases hstop : deleting = true ∨ nsErr ≠ none
  · refine ⟨[.isRequestNamespaceBeingDeleted req.Namespace], rfl, Or.inl ?_⟩
    simp only [Reconcile, hcheck, if_pos hstop]
  · have hns : d.isRequestNamespaceBeingDeleted s req.Namespace = (false, none) := by
      rw [hcheck]
      cases deleting <;> cases nsErr <;> simp_all
    rcases henv : c.GetEnvironment s ⟨req.Namespace, req.Name⟩ with err | env
    · refine ⟨preamble req, writes_preamble req, Or.inl ?_⟩
      simp only [Reconcile, hcheck, if_neg hstop, henv]
      split <;> rfl
    · by_cases hboth : env.GetDeploymentTargetClaimName ≠ "" ∧
          env.Spec.UnstableConfigurationFields ≠ none
      · refine ⟨preamble req, writes_preamble req, Or.inl ?_⟩
        rw [Reconcile_both_forms d c s req env hns henv hboth.1 hboth.2]
      · have hw := writes_generateDesiredResource d c s env
        rcases hres : generateDesiredResource d c s env with ⟨result, resolverCalls⟩
        rw [hres] at hw
        have hreads : writes (preamble req ++ resolverCalls) = [] := by
          rw [writes_append, writes_preamble, hw]
          rfl
        refine ⟨preamble req ++ resolverCalls, hreads, ?_⟩
        rcases result with err | _ | desired
        · rw [Reconcile_resolver_error d c s req env _ err hns henv hboth hres]
          exact Or.inl rfl
        · rw [Reconcile_resolver_none d c s req env _ hns henv hboth hres]
          exact Or.inl rfl
        · right
          rcases hget : c.GetManagedEnvironment s (managedEnvironmentKey env) with
            err | current
          · by_cases hnf : err.IsNotFound = true
            · rw [Reconcile_create d c s req env _ desired err hns henv hboth hres hget hnf]
              exact ⟨managedEnvironmentKey env, [.Create desired], rfl,
                Or.inr (Or.inl ⟨desired, rfl⟩)⟩
            · rw [Reconcile_fetch_error d c s req env _ desired err hns henv hboth hres hget
                (by simpa using hnf)]
              exact ⟨managedEnvironmentKey env, [], rfl, Or.inl rfl⟩
          · by_cases hspec : current.Spec = desired.Spec
            · rw [Reconcile_match d c s req env _ desired current hns henv hboth hres hget
                hspec]
              exact ⟨managedEnvironmentKey env, [], rfl, Or.inl rfl⟩
            · rw [Reconcile_update d c s req env _ desired current hns henv hboth hres hget
                hspec]
              exact ⟨managedEnvironmentKey env, [.Update { current with Spec := desired.Spec }],
                rfl, Or.inr (Or.inr ⟨_, rfl⟩)⟩

/-- C17: whatever the helpers, the client, the store and the request are, one
run of `Reconcile` issues at most one write, a `Create` or an `Update`; and a
run that does not fetch the ManagedEnvironment issues none. -/
theorem C17_at_most_one_write {σ : Type} (d : Deps σ) (c : Client σ) (s : σ) (req : Request) :
    (writes (Reconcile d c s req).calls).length ≤ 1 ∧
      ((∀ key, Call.GetManagedEnvironment key ∉ (Reconcile d c s req).calls) →
        writes (Reconcile d c s req).calls = []) := by
  rcases Reconcile_calls_shape d c s req with
    ⟨reads, hreads, hcalls | ⟨key, tail, hcalls, htail⟩⟩
  · rw [hcalls, hreads]
    exact ⟨Nat.zero_le 1, fun _ => rfl⟩
  · rw [hcalls]
    constructor
    · rw [writes_append, hreads, List.nil_append]
      rcases htail with rfl | ⟨obj, rfl⟩ | ⟨obj, rfl⟩ <;> simp [writes, Call.isWrite]
    · intro hnone
      exact absurd (List.mem_append_right reads (List.mem_cons_self _ tail)) (hnone key)

/-- C17 at `Example.driftedStore`, where the run issues one `Update`. -/
theorem C17_at_most_one_write_witness :
    (writes (Reconcile memDeps memClient Example.driftedStore Example.request).calls).length = 1 ∧
      (writes (Reconcile memDeps memClient Example.driftedStore Example.request).calls).length
        ≤ 1 :=
  ⟨by decide, (C17_at_most_one_write memDeps memClient Example.driftedStore Example.request).1⟩

/-! ## The in-memory store persists its writes -/

/-- An object found by its key has that key. -/
theorem MemStore.get_key {α : Type} (meta : α → ObjectMeta) (objs : List α)
    (key : NamespacedName) (obj : α) (hget : MemStore.get meta objs key = .ok obj) :
    ObjectKeyFromObject (meta obj) = key := by
  unfold MemStore.get at hget
  split at hget
  · rename_i o hfind
    cases hget
    simpa using List.find?_some hfind
  · cases hget

/-- An object appended to a list that has none of its key is found by its key. -/
theorem MemStore.get_append {α : Type} (meta : α → ObjectMeta) (objs : List α) (obj : α)
    (err : GoError)
    (hget : MemStore.get meta objs (ObjectKeyFromObject (meta obj)) = .error err) :
    MemStore.get meta (objs ++ [obj]) (ObjectKeyFromObject (meta obj)) = .ok obj := by
  unfold MemStore.get at hget ⊢
  split at hget
  · cases hget
  · rename_i hfind
    rw [List.find?_append, hfind]
    simp

/-- An object put in place of the objects of its key is found by its key. -/
theorem MemStore.get_put {α : Type} (meta : α → ObjectMeta) (objs : List α) (obj old : α)
    (hget : MemStore.get meta objs (ObjectKeyFromObject (meta obj)) = .ok old) :
    MemStore.get meta (MemStore.put meta objs obj) (ObjectKeyFromObject (meta obj)) =
      .ok obj := by
  induction objs with
  | nil => simp [MemStore.get] at hget
  | cons a rest ih =>
    by_cases ha : ObjectKeyFromObject (meta a) = ObjectKeyFromObject (meta obj)
    · simp [MemStore.get, MemStore.put, ha]
    · have hrest : MemStore.get meta rest (ObjectKeyFromObject (meta obj)) = .ok old := by
        simpa [MemStore.get, List.find?_cons, ha] using hget
      have hput := ih hrest
      simpa [MemStore.get, MemStore.put, List.find?_cons, ha] using hput

/-- The in-memory store persists what it is given, in every state. -/
theorem memClient_persists (s : MemStore) : PersistsWrites memClient s where
  create := by
    intro obj hok
    simp only [memClient] at hok ⊢
    split at hok
    · cases hok
    · rename_i err hget
      simp only [hget]
      exact MemStore.get_append _ _ obj err hget
  update := by
    intro obj hok
    simp only [memClient] at hok ⊢
    split at hok
    · rename_i old hget
      simp only [hget]
      exact MemStore.get_put _ _ obj old hget
    · cases hok
  keyed := fun key obj hget => MemStore.get_key _ _ key obj hget

/-! ## Convergence -/

/-- C18: let `Reconcile` reach the resolver for the fetched Environment (the
namespace is not being deleted, the Environment is fetched and does not have
both forms set), let the resolver return a desired object, and let the store
persist what it is given.  Then, whenever the run returns no error, the store
it leaves holds, under the name `managed-environment-` followed by the
Environment's name in the Environment's namespace, a ManagedEnvironment whose
Spec is the desired Spec. -/
theorem C18_nil_error_means_converged {σ : Type} (d : Deps σ) (c : Client σ) (s : σ)
    (req : Request) (env : Environment) (desired : GitOpsDeploymentManagedEnvironment)
    (hns : d.isRequestNamespaceBeingDeleted s req.Namespace = (false, none))
    (henv : c.GetEnvironment s ⟨req.Namespace, req.Name⟩ = .ok env)
    (hvalid : ¬ (env.GetDeploymentTargetClaimName ≠ "" ∧
      env.Spec.UnstableConfigurationFields ≠ none))
    (hres : (generateDesiredResource d c s env).1 = .ok (some desired))
    (hstore : PersistsWrites c s)
    (hnil : (Reconcile d c s req).err = none) :
    ∃ stored, c.GetManagedEnvironment (Reconcile d c s req).store
        ⟨env.Namespace, "managed-environment-" ++ env.Name⟩ = .ok stored ∧
      stored.Spec = desired.Spec := by
  have hpair : generateDesiredResource d c s env =
      (.ok (some desired), (generateDesiredResource d c s env).2) := Prod.ext hres rfl
  have hkey : ObjectKeyFromObject desired.toObjectMeta = managedEnvironmentKey env := by
    rw [generateDesiredResource_ok d c s env desired hres]
    rfl
  rcases hget : c.GetManagedEnvironment s (managedEnvironmentKey env) with err | current
  · by_cases hnf : err.IsNotFound = true
    · rw [Reconcile_create d c s req env _ desired err hns henv hvalid hpair hget hnf] at hnil ⊢
      have hok : (c.Create s desired).2 = none := by
        cases h : (c.Create s desired).2 with
        | none => rfl
        | some e => simp [h] at hnil
      have hstored := hstore.create desired hok
      rw [hkey] at hstored
      exact ⟨desired, hstored, rfl⟩
    · rw [Reconcile_fetch_error d c s req env _ desired err hns henv hvalid hpair hget
        (by simpa using hnf)] at hnil
      cases hnil
  · by_cases hspec : current.Spec = desired.Spec
    · rw [Reconcile_match d c s req env _ desired current hns henv hvalid hpair hget hspec]
      exact ⟨current, hget, hspec⟩
    · rw [Reconcile_update d c s req env _ desired current hns henv hvalid hpair hget hspec]
        at hnil ⊢
      have hok : (c.Update s { current with Spec := desired.Spec }).2 = none := by
        cases h : (c.Update s { current with Spec := desired.Spec }).2 with
        | none => rfl
        | some e => simp [h] at hnil
      have hstored := hstore.update { current with Spec := desired.Spec } hok
      have hcurrent : ObjectKeyFromObject current.toObjectMeta = managedEnvironmentKey env :=
        hstore.keyed _ _ hget
      have hsame : ObjectKeyFromObject
          ({ current with Spec := desired.Spec } :
            GitOpsDeploymentManagedEnvironment).toObjectMeta =
          managedEnvironmentKey env := hcurrent
      rw [hsame] at hstored
      exact ⟨_, hstored, rfl⟩

/-- C18 at `Example.driftedStore`, where the stored Spec is out of date: the
run returns no error and the store then holds `managed-environment-env` with
the desired Spec. -/
theorem C18_nil_error_witness :
    (Reconcile memDeps memClient Example.driftedStore Example.request).err = none ∧
      ∃ stored,
        memClient.GetManagedEnvironment
          (Reconcile memDeps memClient Example.driftedStore Example.request).store
          ⟨"ns", "managed-environment-env"⟩ = .ok stored ∧
        stored.Spec = Example.desired.Spec :=
  ⟨by decide, C18_nil_error_means_converged memDeps memClient Example.driftedStore
    Example.request Example.claimEnv Example.desired rfl rfl (by decide) (by decide)
    (memClient_persists Example.driftedStore) (by decide)⟩

end ManagedGitops
